import Mathlib

/-!
A verification development for the cirrus language front end (lexer/parser/
semantic-analyzer pipeline).  The Python sources are embedded shallowly:

* `TokenType`, `Token` mirror `src/frontend/lexer/tokens.py` / `token.py`
  (line/column fields are dropped: they feed only human-readable messages).
* `VarType` and `varEq` mirror the type model of
  `src/frontend/semantic/types.py`, including each class's `__eq__`.
* `Expr` / `Stmt` mirror the AST node classes (`syntax/ast.py` and the
  constructors used by `src/frontend/parser`); the function-literal node,
  whose class file is not part of the snapshot and whose parsing recurses
  into the statement grammar, is outside the embedded fragment.
* The expression/type parser mirrors `src/frontend/parser/expressions.py`
  and `src/frontend/parser/parser.py`; `getPrecedence` mirrors
  `src/parser/helpers.py` (the frontend copy of `helpers.py` is not in the
  snapshot; the old-tree file provides the table).  General recursion is
  made total with an explicit fuel parameter; exhausted fuel yields the
  distinguished error `outOfFuel`, which never occurs in any run considered
  by the theorems below.
* The symbol table mirrors `src/src/semantic/symbol.py` and the analyzer
  mirrors `src/frontend/semantic/analyzer.py`, `statements.py`,
  `expressions.py`.  Python's in-place mutation of a shared `FunctionType`
  object when an `infer` return type is resolved is modelled by updating the
  function scope's opening statement and writing the resolved type back to
  the defining scope's symbol when the function scope is popped.
-/

namespace Cirrus

/-- Token kinds, mirroring the `TokenType` enum of
`src/frontend/lexer/tokens.py`. -/
inductive TokenType where
  | RETURN | IF | ELSE | WHILE | RANGE | EACH | FUNC | ECHO | IN | TO | BY
  | HALT | SKIP
  | INT | FLOAT | BOOL | STR | NULL | INFER | VOID | TEMPLATE | ENTITY
  | IDENTIFIER
  | LPAREN | RPAREN | LBRACE | RBRACE | LBRACKET | RBRACKET
  | DOT | COMMA | SEMICOLON | COLON | ARROW | RT_ARROW
  | INT_LITERAL | FLOAT_LITERAL | BOOLEAN_LITERAL | NULL_LITERAL
  | STRING_LITERAL
  | PLUS | MINUS | MULTIPLY | DIVIDE
  | ASSIGN | PLUS_ASSIGN | MINUS_ASSIGN | MULTIPLY_ASSIGN | DIVIDE_ASSIGN
  | LOGICAL_AND | LOGICAL_OR | LOGICAL_NOT
  | EQUAL | NOT_EQUAL | LT | GT | LTE | GTE
  | INCREMENT | DECREMENT
  | DOUBLE_QUOTE | SINGLE_QUOTE
  | EOL_COMMENT | DELIMITED_COMMENT
  | EOF
  | GAP | NEWLINE | MISMATCH
deriving DecidableEq, Repr

/-- A lexical token: kind plus matched text
(`src/frontend/lexer/token.py`; source position dropped). -/
structure Token where
  tokenType : TokenType
  value : String
deriving DecidableEq, Repr

/-- The type model of `src/frontend/semantic/types.py`.  `InferType` and
`VoidType` are the Python subclasses `PrimitiveType(INFER)` /
`PrimitiveType(VOID)` and are represented by those `primitive` values.
`customTypeIdentifier` is the `CustomTypeIdentifier` class (the unresolved
template reference the parser writes as `CustomType`); `template` stores the
identifier's name together with attribute and method tables (Python keeps
insertion-ordered dicts, modelled as association lists). -/
inductive VarType where
  | primitive (primitive : TokenType)
  | function (returnType : VarType) (paramTypes : List (String × VarType))
  | array (elementType : VarType)
  | set (elementType : VarType)
  | map (keyType : VarType) (valueType : VarType)
  | customTypeIdentifier (name : String)
  | template (identifier : String) (attributes : List (String × VarType))
      (methods : List (String × VarType))
deriving Repr

/-- The check `t == VoidType()` of the Python sources.  Dispatching on
`t`'s class, every `__eq__` of `types.py` answers `True` against a
`VoidType()` argument exactly when `t` is itself a `PrimitiveType` carrying
`VOID`, so the check needs no recursion. -/
def isVoidCheck : VarType → Bool
  | .primitive .VOID => true
  | _ => false

/-- The check `t == InferType()` used by `get_return_type`
(`src/frontend/semantic/statements.py` line 395): true exactly for a
primitive `INFER`. -/
def isInferCheck : VarType → Bool
  | .primitive .INFER => true
  | _ => false

mutual

/-- Structural equality of the type model: the union of the `__eq__`
methods of `src/frontend/semantic/types.py`.  Arrays, sets and maps treat
the empty-literal placeholder (`VoidType`) as a wildcard; a
`CustomTypeIdentifier` compares equal to the template it names; template
equality compares attribute and method tables with Python's
truncating-`zip` loop and ignores the identifier. -/
def varEq : VarType → VarType → Bool
  | .primitive p, .primitive q => p = q
  | .primitive _, _ => false
  | .function r ps, .function r' ps' => varEq r r' && varListEq ps ps'
  | .function _ _, _ => false
  | .array e, .array e' =>
      varEq e e' || (isVoidCheck e || isVoidCheck e')
  | .array _, _ => false
  | .set e, .set e' =>
      varEq e e' || (isVoidCheck e || isVoidCheck e')
  | .set _, _ => false
  | .map k v, .map k' v' =>
      (varEq k k' && varEq v v') ||
        ((isVoidCheck k && isVoidCheck v) || (isVoidCheck k' && isVoidCheck v'))
  | .map _ _, _ => false
  | .customTypeIdentifier n, .template id _ _ => n = id
  | .customTypeIdentifier n, .customTypeIdentifier n' => n = n'
  | .customTypeIdentifier _, _ => false
  | .template id _ _, .customTypeIdentifier n => id = n
  | .template _ a m, .template _ a' m' => varZipEq a a' && varZipEq m m'
  | .template _ _ _, _ => false

termination_by structural a _ => a
/-- Python `list ==` on `List[Tuple[str, VarType]]` (used by
`FunctionType.__eq__`): equal lengths and pairwise equal entries. -/
def varListEq : List (String × VarType) → List (String × VarType) → Bool
  | [], [] => true
  | (n, t) :: xs, (n', t') :: ys => n = n' && varEq t t' && varListEq xs ys
  | _, _ => false

termination_by structural a _ => a
/-- The truncating comparison `all(a == b for a, b in zip(xs, ys))` used by
`TemplateType.__eq__`: surplus entries of the longer list are ignored. -/
def varZipEq : List (String × VarType) → List (String × VarType) → Bool
  | (n, t) :: xs, (n', t') :: ys => (n = n' && varEq t t') && varZipEq xs ys
  | _, _ => true

termination_by structural a _ => a
end

/-- Built-in method table of `SetType.__init__`
(`src/frontend/semantic/types.py` lines 103-111); `self` is the set type
itself. -/
def setMethods (elementType : VarType) : List (String × VarType) :=
  let self := VarType.set elementType
  [("add", .function self [("element", elementType)]),
   ("remove", .function self [("element", elementType)]),
   ("clear", .function self []),
   ("contains", .function (.primitive .BOOL) [("element", elementType)]),
   ("size", .function (.primitive .INT) [])]

/-- Built-in method table of `MapType.__init__`
(`src/frontend/semantic/types.py` lines 137-146). -/
def mapMethods (keyType valueType : VarType) : List (String × VarType) :=
  let self := VarType.map keyType valueType
  [("get", .function valueType [("key", keyType)]),
   ("put", .function self [("key", keyType), ("value", valueType)]),
   ("remove", .function self [("key", keyType)]),
   ("clear", .function self []),
   ("contains", .function (.primitive .BOOL) [("key", keyType)]),
   ("size", .function (.primitive .INT) [])]

/-- The `attributes` table of a receiver type: empty dict for sets and maps
(`__init__` assigns `{}`), the declared attributes of a template. -/
def typeAttributes : VarType → List (String × VarType)
  | .template _ attrs _ => attrs
  | _ => []

/-- The `methods` table of a receiver type. -/
def typeMethods : VarType → List (String × VarType)
  | .set e => setMethods e
  | .map k v => mapMethods k v
  | .template _ _ ms => ms
  | _ => []

/-- `StatementAnalyzer._is_hashable_type`
(`src/frontend/semantic/statements.py` lines 405-414):
`isinstance(var_type, (PrimitiveType, SetType))`. -/
def isHashableType : VarType → Bool
  | .primitive _ => true
  | .set _ => true
  | _ => false

/-- Position tag of a `UnaryExpression` (the Python string literals
`'PRE'` / `'POST'`). -/
inductive UnaryPos where
  | pre
  | post
deriving DecidableEq, Repr

mutual

/-- Expression nodes of the AST (`syntax/ast.py` plus the member/method,
set/map/entity constructors used by `src/frontend/parser/expressions.py`).
A Python `NumericLiteral` holds either an `int` or a `float`; the two cases
are split into `numericLiteral` (integer payload) and `floatLiteral` (the
float kept as its source text, since no analyzed property depends on float
arithmetic).  The function-literal node is outside the embedded fragment
(its class file is not part of the snapshot and its parsing recurses into
the statement grammar). -/
inductive Expr where
  | numericLiteral (value : Int)
  | floatLiteral (text : String)
  | stringLiteral (value : String)
  | booleanLiteral (value : Bool)
  | nullLiteral
  | arrayLiteral (elements : List Expr)
  | setLiteral (elements : List Expr)
  | mapLiteral (elements : List (Expr × Expr))
  | entityLiteral (template : String) (attributes : List (String × Expr))
  | identifier (name : String)
  | unaryExpression (operator : TokenType) (operand : Expr) (position : UnaryPos)
  | binaryExpression (left : Expr) (operator : TokenType) (right : Expr)
  | assignmentExpression (left : Expr) (right : Expr)
  | indexExpression (array : Expr) (index : Expr)
  | functionCallExpression (callee : Expr) (args : List Expr)
  | memberAccessExpression (obj : Expr) (member : String)
  | methodCallExpression (obj : Expr) (method : String) (args : List Expr)

/-- Statement nodes of the AST.  Block statements are carried as their
statement lists (`BlockStatement.statements`); a function declaration
carries its `FunctionType` as return type plus parameter list.  Template
declarations are outside the embedded fragment (no claim concerns them). -/
inductive Stmt where
  | variableDeclaration (name : String) (varType : VarType) (initializer : Expr)
  | expressionStatement (expression : Expr)
  | blockStatement (statements : List Stmt)
  | ifStatement (condition : Expr) (thenBlock : List Stmt)
      (elseBlock : Option (List Stmt))
  | whileStatement (condition : Expr) (body : List Stmt)
  | rangeStatement (identifier : String) (start : Expr) (ending : Expr)
      (increment : Expr) (body : List Stmt)
  | eachStatement (varName : String) (iterable : Expr) (body : List Stmt)
  | haltStatement
  | skipStatement
  | functionDeclaration (name : String) (returnType : VarType)
      (paramTypes : List (String × VarType)) (body : List Stmt)
  | returnStatement (expression : Option Expr)
  | echoStatement (expression : Expr)

end

/-- Symbols of the symbol table (`src/src/semantic/symbol.py`): a name
bound to a type. -/
structure Symbol where
  name : String
  varType : VarType

/-- A lexical scope: name-keyed symbol dictionary (insertion-ordered),
the statement that opened the scope (`parent_node`), and the reachability
flag. -/
structure Scope where
  symbols : List Symbol
  parentNode : Option Stmt
  reachable : Bool

/-- The scope stack.  The HEAD of `scopes` is the innermost scope (the end
of the Python list); the global scope sits at the tail. -/
structure SymbolTable where
  scopes : List Scope

/-- Errors raised by the semantic analyzer; each constructor corresponds to
one `raise` site of the Python sources (the doc notes name the message). -/
inductive AErr where
  /-- `NameError: Cannot redeclare variable "name"` -/
  | cannotRedeclareVariable (name : String)
  /-- `NameError: Cannot shadow existing variable "name"` -/
  | cannotShadowVariable (name : String)
  /-- `NameError: Template not found` (variable declaration) -/
  | templateNotFound (name : String)
  /-- `TypeError: Type mismatch for variable name: declared != init` -/
  | varTypeMismatch (name : String) (declared initT : VarType)
  /-- `TypeError: Element type of set must be hashable` -/
  | setElementNotHashable
  /-- `TypeError: Key type of map must be hashable` -/
  | mapKeyNotHashable
  /-- `NameError: Cannot redeclare function "name"` -/
  | cannotRedeclareFunction (name : String)
  /-- `KeyError: Symbol name already declared in the current scope` -/
  | symbolAlreadyDeclared (name : String)
  /-- `IndexError: Cannot exit the global scope` -/
  | cannotExitGlobalScope
  /-- `SyntaxError: Unreachable code detected at node` -/
  | unreachableCode
  /-- `TypeError: Condition of if statement must be a boolean` -/
  | ifConditionNotBool
  /-- `SyntaxError: Unreachable else block detected` -/
  | unreachableElseBlock
  /-- `SyntaxError: Unreachable if block detected` -/
  | unreachableIfBlock
  /-- `TypeError: Condition of while statement must be a boolean` -/
  | whileConditionNotBool
  /-- `TypeError: Range boundaries and increment must be integers` -/
  | rangeBoundsNotInt
  /-- `TypeError: Each statement requires an array type for iteration` -/
  | eachNotArray
  /-- `SyntaxError: Halt statement is not valid outside of a loop block` -/
  | haltOutsideLoop
  /-- `SyntaxError: Skip statement is not valid outside of a loop block` -/
  | skipOutsideLoop
  /-- `SyntaxError: Return statement is not valid outside of a function block` -/
  | returnOutsideFunction
  /-- `TypeError: Return type got does not match function return type expected` -/
  | returnTypeMismatch (got expected : VarType)
  /-- `NameError: Type name is not defined.` (dispatch resolution) -/
  | typeNotDefined (name : String)
  /-- `NameError: Variable name not declared` -/
  | variableNotDeclared (name : String)
  /-- `TypeError: Type mismatch in binary expression` -/
  | binaryTypeMismatch (left right : VarType)
  /-- `TypeError: Invalid operand types/type for operator` -/
  | invalidOperandType (op : TokenType) (t : VarType)
  /-- `TypeError: Invalid use of operator` -/
  | invalidOperator (op : TokenType)
  /-- `TypeError: Invalid assignment target for operator` (increment) -/
  | invalidIncrementTarget (op : TokenType)
  /-- `TypeError: Invalid assignment target` -/
  | invalidAssignmentTarget
  /-- `TypeError: Type mismatch in assignment expression` -/
  | assignTypeMismatch (left right : VarType)
  /-- `NameError: Function name not declared` -/
  | functionNotDeclared (name : String)
  /-- `TypeError: name is not a function` -/
  | notAFunction (name : String)
  /-- `TypeError: Callee expression does not evaluate to a function type` -/
  | calleeNotFunction
  /-- `TypeError: Function expects n arguments, got m` -/
  | arityMismatch (expected got : Nat)
  /-- `TypeError: Argument type got does not match parameter type expected` -/
  | argTypeMismatch (got expected : VarType)
  /-- `TypeError: Array index must be an integer` -/
  | indexNotInt
  /-- `TypeError: Indexing non-array type` -/
  | indexingNonArray
  /-- `TypeError: Type does not have members` -/
  | noMembers
  /-- `TypeError: Member name is not defined on type` -/
  | memberNotDefined (name : String)
  /-- `TypeError: Type does not have methods` -/
  | noMethods
  /-- `TypeError: Method name is not defined on type` -/
  | methodNotDefined (name : String)
  /-- receiver method table held a non-function entry (unreachable for
  analyzer-built tables; Python would fail on attribute access) -/
  | methodNotFunction (name : String)
  /-- `TypeError: Invalid element type in array literal` -/
  | arrayElementTypeMismatch
  /-- `TypeError: Invalid element type in set literal` -/
  | setElementTypeMismatch
  /-- `TypeError: Invalid key type in map literal` -/
  | mapKeyTypeMismatch
  /-- `TypeError: Invalid value type in map literal` -/
  | mapValueTypeMismatch
  /-- `NameError: Template not found` (entity literal) -/
  | entityTemplateNotFound (name : String)
  /-- `TypeError: not a template` (entity literal) -/
  | notATemplate (name : String)
  /-- `NameError: Attribute not defined in template` -/
  | attributeNotDefined (attr template : String)
  /-- `TypeError: Type mismatch for attribute` -/
  | attributeTypeMismatch (attr : String) (expected got : VarType)
  /-- fuel exhaustion of the shallow embedding (never a Python behaviour) -/
  | outOfFuel

namespace SymbolTable

/-- `SymbolTable.enter_scope`: push a scope with empty symbols, the given
opening statement and a true reachability flag. -/
def enterScope (parentNode : Option Stmt) (st : SymbolTable) : SymbolTable :=
  ⟨⟨[], parentNode, true⟩ :: st.scopes⟩

/-- `SymbolTable.exit_scope`: pop the innermost scope; popping the global
scope raises `IndexError`. -/
def exitScope (st : SymbolTable) : Except AErr SymbolTable :=
  match st.scopes with
  | _ :: s :: rest => .ok ⟨s :: rest⟩
  | _ => .error .cannotExitGlobalScope

/-- Membership of a name in one scope's symbol dictionary. -/
def scopeBinds (sc : Scope) (name : String) : Bool :=
  sc.symbols.any fun s => s.name = name

/-- `SymbolTable.define`: add a symbol to the current scope, erroring if
the name is already declared there. -/
def define (name : String) (varType : VarType) (st : SymbolTable) :
    Except AErr SymbolTable :=
  match st.scopes with
  | [] => .error (.symbolAlreadyDeclared name)
  | sc :: rest =>
      if scopeBinds sc name then .error (.symbolAlreadyDeclared name)
      else .ok ⟨⟨sc.symbols ++ [⟨name, varType⟩], sc.parentNode, sc.reachable⟩ :: rest⟩

/-- Whether a scope's opening statement is a `FunctionDeclaration`
(`isinstance(scope.parent_node, FunctionDeclaration)`). -/
def isFunctionScope (sc : Scope) : Bool :=
  match sc.parentNode with
  | some (Stmt.functionDeclaration _ _ _ _) => true
  | _ => false

/-- Whether a scope's opening statement is a while/range/each loop. -/
def isLoopParent (sc : Scope) : Bool :=
  match sc.parentNode with
  | some (Stmt.whileStatement _ _) => true
  | some (Stmt.rangeStatement _ _ _ _ _) => true
  | some (Stmt.eachStatement _ _ _) => true
  | _ => false

/-- Lookup over a scope list (innermost first), the loop body of
`SymbolTable.lookup`: return the first binding; when `limitToFunction` is
true, stop after checking a function-declaration scope. -/
def lookupScopes (scopes : List Scope) (name : String)
    (limitToFunction : Bool) : Option Symbol :=
  match scopes with
  | [] => none
  | sc :: rest =>
      match sc.symbols.find? (fun s => s.name = name) with
      | some s => some s
      | none =>
          if limitToFunction && isFunctionScope sc then none
          else lookupScopes rest name limitToFunction

/-- `SymbolTable.lookup` (`src/src/semantic/symbol.py` lines 82-96). -/
def lookup (st : SymbolTable) (name : String) (limitToFunction : Bool) :
    Option Symbol :=
  lookupScopes st.scopes name limitToFunction

/-- `SymbolTable.get_scope` (`src/src/semantic/symbol.py` lines 98-109):
the scope owning a given symbol, reported here as its index from the
innermost scope.  Python finds the owner by object identity; since the
function is only ever applied to the result of `lookup` — the innermost
binding of the symbol's name — the owner is the first scope binding that
name, which is what the index-returning search computes. -/
def getScopeScopes : List Scope → String → Option Nat
  | [], _ => none
  | sc :: rest, name =>
      if scopeBinds sc name then some 0
      else (getScopeScopes rest name).map (· + 1)

/-- The table-level `get_scope`. -/
def getScope (st : SymbolTable) (sym : Symbol) : Option Nat :=
  getScopeScopes st.scopes sym.name

/-- `SymbolTable.get_current_function_type`: the `function_type` of the
opening `FunctionDeclaration` of the nearest function scope, as a
(return type, parameter list) pair. -/
def getCurrentFunctionTypeScopes (scopes : List Scope) :
    Option (VarType × List (String × VarType)) :=
  match scopes with
  | [] => none
  | sc :: rest =>
      match sc.parentNode with
      | some (Stmt.functionDeclaration _ ret ps _) => some (ret, ps)
      | _ => getCurrentFunctionTypeScopes rest

/-- `SymbolTable.get_current_function_type` on the scope stack. -/
def getCurrentFunctionType (st : SymbolTable) :
    Option (VarType × List (String × VarType)) :=
  getCurrentFunctionTypeScopes st.scopes

/-- `SymbolTable.is_loop_scope` (`src/src/semantic/symbol.py` lines
121-134): walk outward; a function-declaration scope met first answers
false, a while/range/each scope answers true, exhaustion answers false. -/
def isLoopScopeScopes (scopes : List Scope) : Bool :=
  match scopes with
  | [] => false
  | sc :: rest =>
      if isFunctionScope sc then false
      else if isLoopParent sc then true
      else isLoopScopeScopes rest

/-- `SymbolTable.is_loop_scope` on the scope stack. -/
def isLoopScope (st : SymbolTable) : Bool :=
  isLoopScopeScopes st.scopes

/-- `SymbolTable.is_reachable`: every scope on the stack must be
individually reachable. -/
def isReachable (st : SymbolTable) : Bool :=
  st.scopes.all fun sc => sc.reachable

/-- `SymbolTable.set_unreachable`: clear the innermost scope's flag. -/
def setUnreachable (st : SymbolTable) : SymbolTable :=
  match st.scopes with
  | [] => ⟨[]⟩
  | sc :: rest => ⟨⟨sc.symbols, sc.parentNode, false⟩ :: rest⟩

/-- Model of the in-place mutation `fn_type.return_type = return_type` in
`get_return_type`: rewrite the return type stored in the opening statement
of the nearest function scope (the object `get_current_function_type`
returned). -/
def fixCurrentFnReturnScopes (rt : VarType) (scopes : List Scope) :
    List Scope :=
  match scopes with
  | [] => []
  | sc :: rest =>
      match sc.parentNode with
      | some (Stmt.functionDeclaration n _ ps b) =>
          ⟨sc.symbols, some (Stmt.functionDeclaration n rt ps b), sc.reachable⟩ :: rest
      | _ => sc :: fixCurrentFnReturnScopes rt rest

/-- The mutation, lifted to the table. -/
def fixCurrentFunctionReturnType (rt : VarType) (st : SymbolTable) :
    SymbolTable :=
  ⟨fixCurrentFnReturnScopes rt st.scopes⟩

/-- Model of the aliasing between a defined function symbol and the
mutated `FunctionType` object: overwrite the type bound to `name` in the
current scope (used by the write-back when a function scope is popped). -/
def updateSymbol (name : String) (varType : VarType) (st : SymbolTable) :
    SymbolTable :=
  match st.scopes with
  | [] => ⟨[]⟩
  | sc :: rest =>
      ⟨⟨sc.symbols.map fun s => if s.name = name then ⟨name, varType⟩ else s,
        sc.parentNode, sc.reachable⟩ :: rest⟩

end SymbolTable

/-- The fresh symbol table of `SymbolTable.__init__`: one empty global
scope. -/
def initialSymbolTable : SymbolTable :=
  ⟨[⟨[], none, true⟩]⟩

/-- Result of an analysis step: an error, or a type plus the updated
symbol table (Python mutates the table in place). -/
abbrev ARes (α : Type) := Except AErr (α × SymbolTable)

/-- The post-dispatch hook of `SemanticAnalyzer.analyze`
(`src/frontend/semantic/analyzer.py` lines 54-58): a result that is an
unresolved `CustomTypeIdentifier` is replaced by the symbol it names. -/
def resolveNodeType (t : VarType) (st : SymbolTable) : ARes VarType :=
  match t with
  | .customTypeIdentifier n =>
      match st.lookup n false with
      | none => .error (.typeNotDefined n)
      | some s => .ok (s.varType, st)
  | _ => .ok (t, st)

/-- `ExpressionAnalyzer.analyze_identifier`
(`src/frontend/semantic/expressions.py` lines 143-160): a
function-limited lookup; an unbound name is a `NameError`. -/
def analyzeIdentifier (name : String) (st : SymbolTable) : ARes VarType :=
  match st.lookup name true with
  | none => .error (.variableNotDeclared name)
  | some s => .ok (s.varType, st)

/-- `ExpressionAnalyzer._is_assignable`: identifiers are assignable, index
expressions are assignable when their base is; everything else is not.
(The Python member-access recursion is unreachable: the final clause
returns `False` for it.) -/
def isAssignable : Expr → Bool
  | .identifier _ => true
  | .indexExpression a _ => isAssignable a
  | _ => false

/-- `StatementAnalyzer.analyze_halt_statement`
(`src/frontend/semantic/statements.py` lines 309-325). -/
def analyzeHaltStatement (st : SymbolTable) : ARes VarType :=
  if !st.isLoopScope then .error .haltOutsideLoop
  else .ok (.primitive .VOID, st.setUnreachable)

/-- `StatementAnalyzer.analyze_skip_statement`
(`src/frontend/semantic/statements.py` lines 327-343). -/
def analyzeSkipStatement (st : SymbolTable) : ARes VarType :=
  if !st.isLoopScope then .error .skipOutsideLoop
  else .ok (.primitive .VOID, st.setUnreachable)

/-- The parameter-definition loop of `analyze_function_declaration`
(`src/frontend/semantic/statements.py` lines 93-94). -/
def defineParams : List (String × VarType) → SymbolTable →
    Except AErr SymbolTable
  | [], st => .ok st
  | (n, t) :: rest, st =>
      match st.define n t with
      | .error e => .error e
      | .ok st1 => defineParams rest st1

mutual

/-- `SemanticAnalyzer.analyze` dispatching a statement node: the
reachability pre-check, the per-statement rule (an `ExpressionStatement`
has no dedicated rule and falls back to `analyze_generic`, which analyzes
the child expression and returns `PrimitiveType(VOID)`), then the
`CustomTypeIdentifier` resolution of the result. -/
def analyzeStmtD : Nat → Stmt → SymbolTable → ARes VarType
  | 0, _, _ => .error .outOfFuel
  | fuel + 1, node, st =>
      if !st.isReachable then .error .unreachableCode
      else
        match
          (match node with
           | .variableDeclaration n t i => analyzeVariableDeclaration fuel n t i st
           | .expressionStatement e =>
               match analyzeExprD fuel e st with
               | .error err => .error err
               | .ok (_, st1) => .ok (.primitive .VOID, st1)
           | .blockStatement ss => analyzeBlockStatement fuel ss true st
           | .ifStatement c t e => analyzeIfStatement fuel c t e st
           | .whileStatement c b => analyzeWhileStatement fuel c b st
           | .rangeStatement i s e inc b => analyzeRangeStatement fuel i s e inc b st
           | .eachStatement v it b => analyzeEachStatement fuel v it b st
           | .haltStatement => analyzeHaltStatement st
           | .skipStatement => analyzeSkipStatement st
           | .functionDeclaration n r p b => analyzeFunctionDeclaration fuel n r p b st
           | .returnStatement e => analyzeReturnStatement fuel e st
           | .echoStatement e => analyzeEchoStatement fuel e st)
        with
        | .error err => .error err
        | .ok (t, st1) => resolveNodeType t st1

termination_by structural fuel _ _ => fuel
/-- `SemanticAnalyzer.analyze` dispatching an expression node. -/
def analyzeExprD : Nat → Expr → SymbolTable → ARes VarType
  | 0, _, _ => .error .outOfFuel
  | fuel + 1, node, st =>
      if !st.isReachable then .error .unreachableCode
      else
        match
          (match node with
           | .numericLiteral _ => Except.ok ((VarType.primitive .INT), st)
           | .floatLiteral _ => Except.ok ((VarType.primitive .FLOAT), st)
           | .stringLiteral _ => Except.ok ((VarType.primitive .STR), st)
           | .booleanLiteral _ => Except.ok ((VarType.primitive .BOOL), st)
           | .nullLiteral => Except.ok ((VarType.primitive .NULL), st)
           | .arrayLiteral es => analyzeArrayLiteral fuel es st
           | .setLiteral es => analyzeSetLiteral fuel es st
           | .mapLiteral ps => analyzeMapLiteral fuel ps st
           | .entityLiteral tn attrs => analyzeEntityLiteral fuel tn attrs st
           | .identifier n => analyzeIdentifier n st
           | .unaryExpression op operand _ => analyzeUnaryExpression fuel op operand st
           | .binaryExpression l op r => analyzeBinaryExpression fuel l op r st
           | .assignmentExpression l r => analyzeAssignmentExpression fuel l r st
           | .indexExpression a i => analyzeIndexExpression fuel a i st
           | .functionCallExpression c args => analyzeFunctionCallExpression fuel c args st
           | .memberAccessExpression o m => analyzeMemberAccessExpression fuel o m st
           | .methodCallExpression o m args => analyzeMethodCallExpression fuel o m args st)
        with
        | .error err => .error err
        | .ok (t, st1) => resolveNodeType t st1

termination_by structural fuel _ _ => fuel
/-- `StatementAnalyzer.analyze_variable_declaration`
(`src/frontend/semantic/statements.py` lines 12-64): analyze the
initializer; an existing function-visible binding is a redeclare error if
its owning scope is the current scope, a shadow error otherwise; an
`infer` declared type adopts the initializer type; a `CustomType` declared
type resolves against the table; declared and initializer types must be
equal; set/map hashability; then the name is defined. -/
def analyzeVariableDeclaration : Nat → String → VarType → Expr →
    SymbolTable → ARes VarType
  | 0, _, _, _, _ => .error .outOfFuel
  | fuel + 1, name, ty, init, st =>
      match analyzeExprD fuel init st with
      | .error err => .error err
      | .ok (initType, st1) =>
          match st1.lookup name true with
          | some sym =>
              match st1.getScope sym with
              | some 0 => .error (.cannotRedeclareVariable name)
              | _ => .error (.cannotShadowVariable name)
          | none =>
              let ty1 := match ty with
                | .primitive .INFER => initType
                | _ => ty
              match
                (match ty1 with
                 | .customTypeIdentifier tn =>
                     match st1.lookup tn false with
                     | none => Except.error (AErr.templateNotFound tn)
                     | some ts => Except.ok ts.varType
                 | _ => Except.ok ty1)
              with
              | .error err => .error err
              | .ok ty2 =>
                  if !varEq ty2 initType then
                    .error (.varTypeMismatch name ty2 initType)
                  else
                    match
                      (match ty2 with
                       | .set e =>
                           if !isHashableType e then
                             Except.error AErr.setElementNotHashable
                           else Except.ok ()
                       | .map k _ =>
                           if !isHashableType k then
                             Except.error AErr.mapKeyNotHashable
                           else Except.ok ()
                       | _ => Except.ok ())
                    with
                    | .error err => .error err
                    | .ok _ =>
                        match st1.define name ty2 with
                        | .error err => .error err
                        | .ok st2 => .ok (ty2, st2)

/-- `StatementAnalyzer.analyze_function_declaration`
(`src/frontend/semantic/statements.py` lines 66-99), dispatched without a
template context.  Python defines the shared `FunctionType` object before
entering the body scope and mutates it in place when an `infer` return is
resolved; the embedding reads the possibly-fixed type back out of the
function scope when it is popped and rewrites the defined symbol. -/
def analyzeFunctionDeclaration : Nat → String → VarType →
    List (String × VarType) → List Stmt → SymbolTable → ARes VarType
  | 0, _, _, _, _, _ => .error .outOfFuel
  | fuel + 1, name, ret, ps, body, st =>
      if (st.lookup name true).isSome then .error (.cannotRedeclareFunction name)
      else
        match st.define name (.function ret ps) with
        | .error err => .error err
        | .ok st1 =>
            let st2 := st1.enterScope (some (.functionDeclaration name ret ps body))
            match defineParams ps st2 with
            | .error err => .error err
            | .ok st3 =>
                match analyzeBlockStatement fuel body false st3 with
                | .error err => .error err
                | .ok (_, st4) =>
                    let ft := match st4.scopes.head? with
                      | some sc =>
                          match sc.parentNode with
                          | some (.functionDeclaration _ r' ps' _) =>
                              VarType.function r' ps'
                          | _ => VarType.function ret ps
                      | none => VarType.function ret ps
                    match st4.exitScope with
                    | .error err => .error err
                    | .ok st5 => .ok (ft, st5.updateSymbol name ft)

termination_by structural fuel _ _ _ _ _ => fuel
/-- `StatementAnalyzer.analyze_block_statement`
(`src/frontend/semantic/statements.py` lines 127-153): optionally open a
scope, analyze the statements failing fast on unreachable code, optionally
close the scope, return `VoidType`. -/
def analyzeBlockStatement : Nat → List Stmt → Bool → SymbolTable →
    ARes VarType
  | 0, _, _, _ => .error .outOfFuel
  | fuel + 1, stmts, newScope, st =>
      let st0 := if newScope then st.enterScope none else st
      match analyzeStmtSeq fuel stmts st0 with
      | .error err => .error err
      | .ok st1 =>
          if newScope then
            match st1.exitScope with
            | .error err => .error err
            | .ok st2 => .ok (.primitive .VOID, st2)
          else .ok (.primitive .VOID, st1)

termination_by structural fuel _ _ _ => fuel
/-- The statement loop of `analyze_block_statement`: before each statement
the scope chain must be reachable. -/
def analyzeStmtSeq : Nat → List Stmt → SymbolTable → Except AErr SymbolTable
  | 0, _, _ => .error .outOfFuel
  | _ + 1, [], st => .ok st
  | fuel + 1, s :: rest, st =>
      if !st.isReachable then .error .unreachableCode
      else
        match analyzeStmtD fuel s st with
        | .error err => .error err
        | .ok (_, st1) => analyzeStmtSeq fuel rest st1

termination_by structural fuel _ _ => fuel
/-- `StatementAnalyzer.analyze_if_statement`
(`src/frontend/semantic/statements.py` lines 155-194). -/
def analyzeIfStatement : Nat → Expr → List Stmt → Option (List Stmt) →
    SymbolTable → ARes VarType
  | 0, _, _, _, _ => .error .outOfFuel
  | fuel + 1, cond, thn, els, st =>
      if !st.isReachable then .error .unreachableCode
      else
        match analyzeExprD fuel cond st with
        | .error err => .error err
        | .ok (condType, st1) =>
            if !varEq condType (.primitive .BOOL) then .error .ifConditionNotBool
            else
              match cond with
              | .booleanLiteral true =>
                  match analyzeThenBlock fuel cond thn els st1 with
                  | .error err => .error err
                  | .ok (_, st2) =>
                      match els with
                      | some _ => .error .unreachableElseBlock
                      | none => .ok (.primitive .VOID, st2)
              | .booleanLiteral false =>
                  match thn with
                  | _ :: _ => .error .unreachableIfBlock
                  | [] =>
                      match analyzeElseBlock fuel cond thn els st1 with
                      | .error err => .error err
                      | .ok (_, st2) => .ok (.primitive .VOID, st2)
              | _ =>
                  match analyzeThenBlock fuel cond thn els st1 with
                  | .error err => .error err
                  | .ok (tr, st2) =>
                      match analyzeElseBlock fuel cond thn els st2 with
                      | .error err => .error err
                      | .ok (er, st3) =>
                          .ok (.primitive .VOID,
                               if !tr && !er then st3.setUnreachable else st3)

termination_by structural fuel _ _ _ _ => fuel
/-- `StatementAnalyzer._analyze_then_block`: a fresh scope opened with the
if node, the block analyzed without a further scope, its reachability
sampled, the scope popped. -/
def analyzeThenBlock : Nat → Expr → List Stmt → Option (List Stmt) →
    SymbolTable → ARes Bool
  | 0, _, _, _, _ => .error .outOfFuel
  | fuel + 1, cond, thn, els, st =>
      let st1 := st.enterScope (some (.ifStatement cond thn els))
      match analyzeBlockStatement fuel thn false st1 with
      | .error err => .error err
      | .ok (_, st2) =>
          let tr := st2.isReachable
          match st2.exitScope with
          | .error err => .error err
          | .ok st3 => .ok (tr, st3)

termination_by structural fuel _ _ _ _ => fuel
/-- `StatementAnalyzer._analyze_else_block`: like the then block when an
else block is present; an absent else block reports `True` (reachable)
without touching the table. -/
def analyzeElseBlock : Nat → Expr → List Stmt → Option (List Stmt) →
    SymbolTable → ARes Bool
  | 0, _, _, _, _ => .error .outOfFuel
  | fuel + 1, cond, thn, els, st =>
      match els with
      | some b =>
          let st1 := st.enterScope (some (.ifStatement cond thn els))
          match analyzeBlockStatement fuel b false st1 with
          | .error err => .error err
          | .ok (_, st2) =>
              let er := st2.isReachable
              match st2.exitScope with
              | .error err => .error err
              | .ok st3 => .ok (er, st3)
      | none => .ok (true, st)

termination_by structural fuel _ _ _ _ => fuel
/-- `StatementAnalyzer.analyze_while_statement`
(`src/frontend/semantic/statements.py` lines 231-251). -/
def analyzeWhileStatement : Nat → Expr → List Stmt → SymbolTable →
    ARes VarType
  | 0, _, _, _ => .error .outOfFuel
  | fuel + 1, cond, body, st =>
      match analyzeExprD fuel cond st with
      | .error err => .error err
      | .ok (condType, st1) =>
          if !varEq condType (.primitive .BOOL) then .error .whileConditionNotBool
          else
            let st2 := st1.enterScope (some (.whileStatement cond body))
            match analyzeBlockStatement fuel body false st2 with
            | .error err => .error err
            | .ok (_, st3) =>
                match st3.exitScope with
                | .error err => .error err
                | .ok st4 => .ok (.primitive .VOID, st4)

termination_by structural fuel _ _ _ => fuel
/-- `StatementAnalyzer.analyze_range_statement`
(`src/frontend/semantic/statements.py` lines 253-282). -/
def analyzeRangeStatement : Nat → String → Expr → Expr → Expr →
    List Stmt → SymbolTable → ARes VarType
  | 0, _, _, _, _, _, _ => .error .outOfFuel
  | fuel + 1, ident, start, ending, incr, body, st =>
      match analyzeExprD fuel start st with
      | .error err => .error err
      | .ok (startT, st1) =>
          match analyzeExprD fuel ending st1 with
          | .error err => .error err
          | .ok (endT, st2) =>
              match analyzeExprD fuel incr st2 with
              | .error err => .error err
              | .ok (incT, st3) =>
                  if !varEq startT (.primitive .INT) ||
                      !varEq endT (.primitive .INT) ||
                      !varEq incT (.primitive .INT) then
                    .error .rangeBoundsNotInt
                  else
                    let st4 := st3.enterScope
                      (some (.rangeStatement ident start ending incr body))
                    match st4.define ident (.primitive .INT) with
                    | .error err => .error err
                    | .ok st5 =>
                        match analyzeBlockStatement fuel body false st5 with
                        | .error err => .error err
                        | .ok (_, st6) =>
                            match st6.exitScope with
                            | .error err => .error err
                            | .ok st7 => .ok (.primitive .VOID, st7)

termination_by structural fuel _ _ _ _ _ _ => fuel
/-- `StatementAnalyzer.analyze_each_statement`
(`src/frontend/semantic/statements.py` lines 284-307). -/
def analyzeEachStatement : Nat → String → Expr → List Stmt → SymbolTable →
    ARes VarType
  | 0, _, _, _, _ => .error .outOfFuel
  | fuel + 1, v, iter, body, st =>
      match analyzeExprD fuel iter st with
      | .error err => .error err
      | .ok (iterT, st1) =>
          match iterT with
          | .array elemT =>
              let st2 := st1.enterScope (some (.eachStatement v iter body))
              match st2.define v elemT with
              | .error err => .error err
              | .ok st3 =>
                  match analyzeBlockStatement fuel body false st3 with
                  | .error err => .error err
                  | .ok (_, st4) =>
                      match st4.exitScope with
                      | .error err => .error err
                      | .ok st5 => .ok (.primitive .VOID, st5)
          | _ => .error .eachNotArray

termination_by structural fuel _ _ _ _ => fuel
/-- `StatementAnalyzer.analyze_echo_statement`. -/
def analyzeEchoStatement : Nat → Expr → SymbolTable → ARes VarType
  | 0, _, _ => .error .outOfFuel
  | fuel + 1, e, st =>
      match analyzeExprD fuel e st with
      | .error err => .error err
      | .ok (_, st1) => .ok (.primitive .VOID, st1)

/-- `StatementAnalyzer.get_return_type`
(`src/frontend/semantic/statements.py` lines 372-403): outside any
function scope a `SyntaxError`; otherwise the expression's type (or
`VoidType` for a bare return).  A still-`infer` declared return type is
fixed in place to this type; otherwise a mismatch raises a `TypeError`
naming the declared type.  Python reads `fn_type.return_type` from the
shared object after the expression is analyzed, so the embedding re-reads
it from the post-analysis table. -/
def getReturnType : Nat → Option Expr → SymbolTable → ARes VarType
  | 0, _, _ => .error .outOfFuel
  | fuel + 1, expr?, st =>
      if (st.getCurrentFunctionType).isNone then .error .returnOutsideFunction
      else
        match
          (match expr? with
           | none => Except.ok ((VarType.primitive .VOID), st)
           | some e => analyzeExprD fuel e st)
        with
        | .error err => .error err
        | .ok (rt, st1) =>
            match st1.getCurrentFunctionType with
            | none => .error .returnOutsideFunction
            | some (fnRet, _) =>
                if isInferCheck fnRet then
                  .ok (rt, SymbolTable.fixCurrentFunctionReturnType rt st1)
                else if !varEq rt fnRet then
                  .error (.returnTypeMismatch rt fnRet)
                else .ok (rt, st1)

/-- `StatementAnalyzer.analyze_return_statement`: the checked return type,
then the current scope made unreachable. -/
def analyzeReturnStatement : Nat → Option Expr → SymbolTable → ARes VarType
  | 0, _, _ => .error .outOfFuel
  | fuel + 1, expr?, st =>
      match getReturnType fuel expr? st with
      | .error err => .error err
      | .ok (rt, st1) => .ok (rt, st1.setUnreachable)

/-- `ExpressionAnalyzer.analyze_binary_expression`
(`src/frontend/semantic/expressions.py` lines 13-67). -/
def analyzeBinaryExpression : Nat → Expr → TokenType → Expr → SymbolTable →
    ARes VarType
  | 0, _, _, _, _ => .error .outOfFuel
  | fuel + 1, l, op, r, st =>
      match analyzeExprD fuel l st with
      | .error err => .error err
      | .ok (lt, st1) =>
          match analyzeExprD fuel r st1 with
          | .error err => .error err
          | .ok (rt, st2) =>
              if !varEq lt rt then .error (.binaryTypeMismatch lt rt)
              else
                match op with
                | .PLUS | .MINUS | .MULTIPLY | .DIVIDE =>
                    if !(varEq lt (.primitive .INT) || varEq lt (.primitive .FLOAT) ||
                        varEq lt (.primitive .STR)) then
                      .error (.invalidOperandType op lt)
                    else .ok (lt, st2)
                | .EQUAL | .NOT_EQUAL | .LT | .GT | .LTE | .GTE =>
                    .ok (.primitive .BOOL, st2)
                | .LOGICAL_AND | .LOGICAL_OR =>
                    if !varEq lt (.primitive .BOOL) then
                      .error (.invalidOperandType op lt)
                    else .ok (.primitive .BOOL, st2)
                | _ => .error (.invalidOperator op)

termination_by structural fuel _ _ _ _ => fuel
/-- `ExpressionAnalyzer.analyze_unary_expression`
(`src/frontend/semantic/expressions.py` lines 69-113). -/
def analyzeUnaryExpression : Nat → TokenType → Expr → SymbolTable →
    ARes VarType
  | 0, _, _, _ => .error .outOfFuel
  | fuel + 1, op, operand, st =>
      match analyzeExprD fuel operand st with
      | .error err => .error err
      | .ok (ot, st1) =>
          match op with
          | .LOGICAL_NOT =>
              if !varEq ot (.primitive .BOOL) then .error (.invalidOperandType op ot)
              else .ok (.primitive .BOOL, st1)
          | .MINUS =>
              if !(varEq ot (.primitive .INT) || varEq ot (.primitive .FLOAT)) then
                .error (.invalidOperandType op ot)
              else .ok (ot, st1)
          | .INCREMENT | .DECREMENT =>
              if !isAssignable operand then .error (.invalidIncrementTarget op)
              else if !(varEq ot (.primitive .INT) || varEq ot (.primitive .FLOAT)) then
                .error (.invalidOperandType op ot)
              else .ok (ot, st1)
          | _ => .error (.invalidOperator op)

termination_by structural fuel _ _ _ => fuel
/-- `ExpressionAnalyzer.analyze_assignment_expression`
(`src/frontend/semantic/expressions.py` lines 115-141): the target must be
an identifier, index or member-access expression; both sides must have
equal types. -/
def analyzeAssignmentExpression : Nat → Expr → Expr → SymbolTable →
    ARes VarType
  | 0, _, _, _ => .error .outOfFuel
  | fuel + 1, l, r, st =>
      let validTarget := match l with
        | .identifier _ => true
        | .indexExpression _ _ => true
        | .memberAccessExpression _ _ => true
        | _ => false
      if !validTarget then .error .invalidAssignmentTarget
      else
        match analyzeExprD fuel l st with
        | .error err => .error err
        | .ok (lt, st1) =>
            match analyzeExprD fuel r st1 with
            | .error err => .error err
            | .ok (rt, st2) =>
                if !varEq lt rt then .error (.assignTypeMismatch lt rt)
                else .ok (lt, st2)

termination_by structural fuel _ _ _ => fuel
/-- `ExpressionAnalyzer.analyze_function_call_expression`
(`src/frontend/semantic/expressions.py` lines 162-215): a named callee is
resolved with an unlimited lookup; any other callee is analyzed to a
function type; exact arity; each argument equal to its parameter type. -/
def analyzeFunctionCallExpression : Nat → Expr → List Expr → SymbolTable →
    ARes VarType
  | 0, _, _, _ => .error .outOfFuel
  | fuel + 1, callee, args, st =>
      match
        (match callee with
         | .identifier n =>
             match st.lookup n false with
             | none => Except.error (AErr.functionNotDeclared n)
             | some s =>
                 match s.varType with
                 | .function ret ps => Except.ok ((ret, ps), st)
                 | _ => Except.error (AErr.notAFunction n)
         | _ =>
             match analyzeExprD fuel callee st with
             | .error err => .error err
             | .ok (t, st1) =>
                 match t with
                 | .function ret ps => Except.ok ((ret, ps), st1)
                 | _ => Except.error AErr.calleeNotFunction)
      with
      | .error err => .error err
      | .ok ((ret, ps), st1) =>
          if args.length ≠ ps.length then
            .error (.arityMismatch ps.length args.length)
          else
            match checkCallArgs fuel args ps st1 with
            | .error err => .error err
            | .ok st2 => .ok (ret, st2)

termination_by structural fuel _ _ _ => fuel
/-- The argument loop shared by function and method calls: analyze each
argument and require equality with the parameter type (`zip` truncates,
though arity is checked before the loop is reached). -/
def checkCallArgs : Nat → List Expr → List (String × VarType) →
    SymbolTable → Except AErr SymbolTable
  | 0, _, _, _ => .error .outOfFuel
  | _ + 1, [], _, st => .ok st
  | _ + 1, _ :: _, [], st => .ok st
  | fuel + 1, a :: as_, (_, pt) :: pts, st =>
      match analyzeExprD fuel a st with
      | .error err => .error err
      | .ok (at_, st1) =>
          if !varEq at_ pt then .error (.argTypeMismatch at_ pt)
          else checkCallArgs fuel as_ pts st1

termination_by structural fuel _ _ _ => fuel
/-- `ExpressionAnalyzer.analyze_index_expression`
(`src/frontend/semantic/expressions.py` lines 217-239): the index is
analyzed (and must be an integer) before the array. -/
def analyzeIndexExpression : Nat → Expr → Expr → SymbolTable → ARes VarType
  | 0, _, _, _ => .error .outOfFuel
  | fuel + 1, arr, idx, st =>
      match analyzeExprD fuel idx st with
      | .error err => .error err
      | .ok (it, st1) =>
          if !varEq it (.primitive .INT) then .error .indexNotInt
          else
            match analyzeExprD fuel arr st1 with
            | .error err => .error err
            | .ok (arrT, st2) =>
                match arrT with
                | .array e => .ok (e, st2)
                | _ => .error .indexingNonArray

termination_by structural fuel _ _ _ => fuel
/-- `ExpressionAnalyzer.analyze_member_access_expression`
(`src/frontend/semantic/expressions.py` lines 241-263). -/
def analyzeMemberAccessExpression : Nat → Expr → String → SymbolTable →
    ARes VarType
  | 0, _, _, _ => .error .outOfFuel
  | fuel + 1, obj, member, st =>
      match analyzeExprD fuel obj st with
      | .error err => .error err
      | .ok (objT, st1) =>
          let hasMembers := match objT with
            | .set _ => true
            | .map _ _ => true
            | .template _ _ _ => true
            | _ => false
          if !hasMembers then .error .noMembers
          else
            match (typeAttributes objT).find? (fun p => p.1 = member) with
            | none => .error (.memberNotDefined member)
            | some (_, t) => .ok (t, st1)

termination_by structural fuel _ _ _ => fuel
/-- `ExpressionAnalyzer.analyze_method_call_expression`
(`src/frontend/semantic/expressions.py` lines 265-303). -/
def analyzeMethodCallExpression : Nat → Expr → String → List Expr →
    SymbolTable → ARes VarType
  | 0, _, _, _, _ => .error .outOfFuel
  | fuel + 1, obj, method, args, st =>
      match analyzeExprD fuel obj st with
      | .error err => .error err
      | .ok (objT, st1) =>
          let hasMethods := match objT with
            | .set _ => true
            | .map _ _ => true
            | .template _ _ _ => true
            | _ => false
          if !hasMethods then .error .noMethods
          else
            match (typeMethods objT).find? (fun p => p.1 = method) with
            | none => .error (.methodNotDefined method)
            | some (_, mt) =>
                match mt with
                | .function ret ps =>
                    if args.length ≠ ps.length then
                      .error (.arityMismatch ps.length args.length)
                    else
                      match checkCallArgs fuel args ps st1 with
                      | .error err => .error err
                      | .ok st2 => .ok (ret, st2)
                | _ => .error (.methodNotFunction method)

termination_by structural fuel _ _ _ _ => fuel
/-- `ExpressionAnalyzer.analyze_array_literal`
(`src/frontend/semantic/expressions.py` lines 353-373): an empty literal
is `ArrayType(VoidType)`; otherwise the first element's type, with every
element (the first included) re-analyzed and compared against it. -/
def analyzeArrayLiteral : Nat → List Expr → SymbolTable → ARes VarType
  | 0, _, _ => .error .outOfFuel
  | fuel + 1, elems, st =>
      match elems with
      | [] => .ok (.array (.primitive .VOID), st)
      | e0 :: _ =>
          match analyzeExprD fuel e0 st with
          | .error err => .error err
          | .ok (et, st1) =>
              match checkElementTypes fuel elems et .arrayElementTypeMismatch st1 with
              | .error err => .error err
              | .ok st2 => .ok (.array et, st2)

termination_by structural fuel _ _ => fuel
/-- `ExpressionAnalyzer.analyze_set_literal`. -/
def analyzeSetLiteral : Nat → List Expr → SymbolTable → ARes VarType
  | 0, _, _ => .error .outOfFuel
  | fuel + 1, elems, st =>
      match elems with
      | [] => .ok (.set (.primitive .VOID), st)
      | e0 :: _ =>
          match analyzeExprD fuel e0 st with
          | .error err => .error err
          | .ok (et, st1) =>
              match checkElementTypes fuel elems et .setElementTypeMismatch st1 with
              | .error err => .error err
              | .ok st2 => .ok (.set et, st2)

termination_by structural fuel _ _ => fuel
/-- The element loop of the array/set literal rules. -/
def checkElementTypes : Nat → List Expr → VarType → AErr → SymbolTable →
    Except AErr SymbolTable
  | 0, _, _, _, _ => .error .outOfFuel
  | _ + 1, [], _, _, st => .ok st
  | fuel + 1, e :: rest, expected, err, st =>
      match analyzeExprD fuel e st with
      | .error err1 => .error err1
      | .ok (t, st1) =>
          if !varEq t expected then .error err
          else checkElementTypes fuel rest expected err st1

termination_by structural fuel _ _ _ _ => fuel
/-- `ExpressionAnalyzer.analyze_map_literal`
(`src/frontend/semantic/expressions.py` lines 397-424). -/
def analyzeMapLiteral : Nat → List (Expr × Expr) → SymbolTable → ARes VarType
  | 0, _, _ => .error .outOfFuel
  | fuel + 1, pairs, st =>
      match pairs with
      | [] => .ok (.map (.primitive .VOID) (.primitive .VOID), st)
      | (k0, v0) :: _ =>
          match analyzeExprD fuel k0 st with
          | .error err => .error err
          | .ok (kt, st1) =>
              match analyzeExprD fuel v0 st1 with
              | .error err => .error err
              | .ok (vt, st2) =>
                  match checkMapPairs fuel pairs kt vt st2 with
                  | .error err => .error err
                  | .ok st3 => .ok (.map kt vt, st3)

termination_by structural fuel _ _ => fuel
/-- The key/value loop of the map literal rule. -/
def checkMapPairs : Nat → List (Expr × Expr) → VarType → VarType →
    SymbolTable → Except AErr SymbolTable
  | 0, _, _, _, _ => .error .outOfFuel
  | _ + 1, [], _, _, st => .ok st
  | fuel + 1, (k, v) :: rest, kt, vt, st =>
      match analyzeExprD fuel k st with
      | .error err => .error err
      | .ok (kt1, st1) =>
          if !varEq kt1 kt then .error .mapKeyTypeMismatch
          else
            match analyzeExprD fuel v st1 with
            | .error err => .error err
            | .ok (vt1, st2) =>
                if !varEq vt1 vt then .error .mapValueTypeMismatch
                else checkMapPairs fuel rest kt vt st2

termination_by structural fuel _ _ _ _ => fuel
/-- `ExpressionAnalyzer.analyze_entity_literal`
(`src/frontend/semantic/expressions.py` lines 426-460). -/
def analyzeEntityLiteral : Nat → String → List (String × Expr) →
    SymbolTable → ARes VarType
  | 0, _, _, _ => .error .outOfFuel
  | fuel + 1, tn, attrs, st =>
      match st.lookup tn false with
      | none => .error (.entityTemplateNotFound tn)
      | some s =>
          match s.varType with
          | .template id tattrs tmethods =>
              match checkEntityAttributes fuel attrs tattrs tn st with
              | .error err => .error err
              | .ok st1 => .ok (.template id tattrs tmethods, st1)
          | _ => .error (.notATemplate tn)

termination_by structural fuel _ _ _ => fuel
/-- The attribute loop of the entity literal rule. -/
def checkEntityAttributes : Nat → List (String × Expr) →
    List (String × VarType) → String → SymbolTable → Except AErr SymbolTable
  | 0, _, _, _, _ => .error .outOfFuel
  | _ + 1, [], _, _, st => .ok st
  | fuel + 1, (key, value) :: rest, tattrs, tn, st =>
      match tattrs.find? (fun p => p.1 = key) with
      | none => .error (.attributeNotDefined key tn)
      | some (_, tmt) =>
          match analyzeExprD fuel value st with
          | .error err => .error err
          | .ok (emt, st1) =>
              if !varEq emt tmt then .error (.attributeTypeMismatch key tmt emt)
              else checkEntityAttributes fuel rest tattrs tn st1

termination_by structural fuel _ _ _ _ => fuel
end

/-- The statement loop of `SemanticAnalyzer.analyze_program`: plain
dispatch per statement, with no extra reachability check between
statements (each dispatch performs its own). -/
def analyzeStmtsTop (fuel : Nat) : List Stmt → SymbolTable →
    Except AErr SymbolTable
  | [], st => .ok st
  | s :: rest, st =>
      match analyzeStmtD fuel s st with
      | .error err => .error err
      | .ok (_, st1) => analyzeStmtsTop fuel rest st1

/-- `SemanticAnalyzer.analyze_program` as dispatched for a `Program` node:
the reachability pre-check, a root scope entered and exited around the
body. -/
def analyzeProgram (fuel : Nat) (body : List Stmt) (st : SymbolTable) :
    ARes VarType :=
  if !st.isReachable then .error .unreachableCode
  else
    match analyzeStmtsTop fuel body (st.enterScope none) with
    | .error err => .error err
    | .ok st1 =>
        match st1.exitScope with
        | .error err => .error err
        | .ok st2 => .ok (.primitive .VOID, st2)

/-- Parser errors; each constructor corresponds to one `raise` site of
`src/frontend/parser` (doc notes name the message). -/
inductive PErr where
  /-- `SyntaxError: Expected token expected, but got got` (`Parser.consume`) -/
  | expectedToken (expected got : TokenType)
  /-- `RuntimeError: End of file reached` (`Parser.current` past the list) -/
  | endOfFile
  /-- `SyntaxError: Unexpected token t` -/
  | unexpectedToken (t : TokenType)
  /-- `SyntaxError: Invalid left-hand side in assignment` -/
  | invalidAssignLeft
  /-- a `func` literal: its parsing recurses into the statement grammar,
  which is outside the embedded fragment -/
  | funcLiteralOutsideFragment
  /-- fuel exhaustion of the shallow embedding (never a Python behaviour) -/
  | outOfFuel
deriving DecidableEq, Repr

/-- Result of a parsing step: an error, or a value plus the remaining
tokens (Python advances `self.pos`). -/
abbrev PRes (α : Type) := Except PErr (α × List Token)

/-- `Parser.current`: the token under the cursor; overrunning the list is
a `RuntimeError`. -/
def currentTok (ts : List Token) : Except PErr Token :=
  match ts with
  | [] => .error .endOfFile
  | t :: _ => .ok t

/-- `Parser.consume`: take the current token if its kind matches, else a
`SyntaxError`; `current` itself errors past the end of the list. -/
def consume (tt : TokenType) (ts : List Token) : PRes Token :=
  match ts with
  | [] => .error .endOfFile
  | t :: rest =>
      if t.tokenType = tt then .ok (t, rest)
      else .error (.expectedToken tt t.tokenType)

/-- `get_precedence` (`src/parser/helpers.py`): the binary-operator
precedence table, defaulting to 0. -/
def getPrecedence : TokenType → Nat
  | .LOGICAL_OR => 1
  | .LOGICAL_AND => 2
  | .EQUAL => 3
  | .NOT_EQUAL => 3
  | .LT => 4
  | .GT => 4
  | .LTE => 4
  | .GTE => 4
  | .PLUS => 5
  | .MINUS => 5
  | .MULTIPLY => 6
  | .DIVIDE => 6
  | _ => 0

/-- `int(token.value)` for an `INT_LITERAL` token: the lexer guarantees a
digit string (`\d+`), on which Python's `int` is the base-10 value. -/
def tokenInt (s : String) : Int :=
  Int.ofNat (s.data.foldl (fun acc c => acc * 10 + (c.toNat - 48)) 0)

mutual

/-- `ExpressionParser.parse_expression`
(`src/frontend/parser/expressions.py` lines 25-38): bracketed input goes
to the array-literal (and pipe) grammar, braced input to the set/map
grammar, `func` to the function-literal grammar (outside the embedded
fragment), everything else to assignment parsing. -/
def parseExpression : Nat → List Token → PRes Expr
  | 0, _ => .error .outOfFuel
  | fuel + 1, ts =>
      match currentTok ts with
      | .error e => .error e
      | .ok t =>
          if t.tokenType = .LBRACKET then parseArrayLiteral fuel ts
          else if t.tokenType = .LBRACE then parseSetLiteral fuel ts
          else if t.tokenType = .FUNC then .error .funcLiteralOutsideFragment
          else parseAssignmentExpression fuel ts

termination_by structural fuel _ => fuel
/-- `ExpressionParser.parse_assignment_expression`
(`src/frontend/parser/expressions.py` lines 40-64): after parsing a binary
expression, an `=` continues right-associatively, and the already-parsed
left side must be an `Identifier` or `IndexExpression` — anything else
(a `MemberAccessExpression` included) raises a `SyntaxError`. -/
def parseAssignmentExpression : Nat → List Token → PRes Expr
  | 0, _ => .error .outOfFuel
  | fuel + 1, ts =>
      match parseBinaryExpression fuel 0 ts with
      | .error e => .error e
      | .ok (left, ts1) =>
          match currentTok ts1 with
          | .error e => .error e
          | .ok t =>
              if t.tokenType = .ASSIGN then
                match consume .ASSIGN ts1 with
                | .error e => .error e
                | .ok (_, ts2) =>
                    match parseAssignmentExpression fuel ts2 with
                    | .error e => .error e
                    | .ok (right, ts3) =>
                        match left with
                        | .identifier _ =>
                            .ok (.assignmentExpression left right, ts3)
                        | .indexExpression _ _ =>
                            .ok (.assignmentExpression left right, ts3)
                        | _ => .error .invalidAssignLeft
              else .ok (left, ts1)

termination_by structural fuel _ => fuel
/-- `ExpressionParser.parse_binary_expression`
(`src/frontend/parser/expressions.py` lines 66-92): precedence climbing
over `getPrecedence`. -/
def parseBinaryExpression : Nat → Nat → List Token → PRes Expr
  | 0, _, _ => .error .outOfFuel
  | fuel + 1, precedence, ts =>
      match parseUnaryExpression fuel ts with
      | .error e => .error e
      | .ok (left, ts1) => parseBinaryLoop fuel precedence left ts1

termination_by structural fuel _ _ => fuel
/-- The `while` loop of `parse_binary_expression`: stop at end of input or
at an operator of no higher precedence; otherwise consume the operator,
parse the right side at its precedence, and fold left-associatively. -/
def parseBinaryLoop : Nat → Nat → Expr → List Token → PRes Expr
  | 0, _, _, _ => .error .outOfFuel
  | fuel + 1, precedence, left, ts =>
      match currentTok ts with
      | .error e => .error e
      | .ok t =>
          if t.tokenType = .EOF then .ok (left, ts)
          else
            let p := getPrecedence t.tokenType
            if p ≤ precedence then .ok (left, ts)
            else
              match consume t.tokenType ts with
              | .error e => .error e
              | .ok (_, ts1) =>
                  match parseBinaryExpression fuel p ts1 with
                  | .error e => .error e
                  | .ok (right, ts2) =>
                      parseBinaryLoop fuel precedence
                        (.binaryExpression left t.tokenType right) ts2

termination_by structural fuel _ _ _ => fuel
/-- `ExpressionParser.parse_unary_expression`
(`src/frontend/parser/expressions.py` lines 94-125): prefix `++`/`--`/`!`
recurse; then a primary expression, then postfix `++`/`--`. -/
def parseUnaryExpression : Nat → List Token → PRes Expr
  | 0, _ => .error .outOfFuel
  | fuel + 1, ts =>
      match currentTok ts with
      | .error e => .error e
      | .ok t =>
          if t.tokenType = .INCREMENT || t.tokenType = .DECREMENT ||
              t.tokenType = .LOGICAL_NOT then
            match consume t.tokenType ts with
            | .error e => .error e
            | .ok (_, ts1) =>
                match parseUnaryExpression fuel ts1 with
                | .error e => .error e
                | .ok (operand, ts2) =>
                    .ok (.unaryExpression t.tokenType operand .pre, ts2)
          else
            match parsePrimaryExpression fuel ts with
            | .error e => .error e
            | .ok (expr, ts1) => parsePostfixUnaryLoop fuel expr ts1

termination_by structural fuel _ => fuel
/-- The postfix `++`/`--` loop of `parse_unary_expression`. -/
def parsePostfixUnaryLoop : Nat → Expr → List Token → PRes Expr
  | 0, _, _ => .error .outOfFuel
  | fuel + 1, expr, ts =>
      match currentTok ts with
      | .error e => .error e
      | .ok t =>
          if t.tokenType = .INCREMENT || t.tokenType = .DECREMENT then
            match consume t.tokenType ts with
            | .error e => .error e
            | .ok (_, ts1) =>
                parsePostfixUnaryLoop fuel
                  (.unaryExpression t.tokenType expr .post) ts1
          else .ok (expr, ts)

termination_by structural fuel _ _ => fuel
/-- `ExpressionParser.parse_primary_expression`
(`src/frontend/parser/expressions.py` lines 127-174). -/
def parsePrimaryExpression : Nat → List Token → PRes Expr
  | 0, _ => .error .outOfFuel
  | fuel + 1, ts =>
      match currentTok ts with
      | .error e => .error e
      | .ok t =>
          match t.tokenType with
          | .INT_LITERAL =>
              match consume .INT_LITERAL ts with
              | .error e => .error e
              | .ok (tok, ts1) => .ok (.numericLiteral (tokenInt tok.value), ts1)
          | .FLOAT_LITERAL =>
              match consume .FLOAT_LITERAL ts with
              | .error e => .error e
              | .ok (tok, ts1) => .ok (.floatLiteral tok.value, ts1)
          | .SINGLE_QUOTE =>
              match consume .SINGLE_QUOTE ts with
              | .error e => .error e
              | .ok (_, ts1) =>
                  match consume .STRING_LITERAL ts1 with
                  | .error e => .error e
                  | .ok (strTok, ts2) =>
                      match consume .SINGLE_QUOTE ts2 with
                      | .error e => .error e
                      | .ok (_, ts3) => .ok (.stringLiteral strTok.value, ts3)
          | .DOUBLE_QUOTE =>
              match consume .DOUBLE_QUOTE ts with
              | .error e => .error e
              | .ok (_, ts1) =>
                  match consume .STRING_LITERAL ts1 with
                  | .error e => .error e
                  | .ok (strTok, ts2) =>
                      match consume .DOUBLE_QUOTE ts2 with
                      | .error e => .error e
                      | .ok (_, ts3) => .ok (.stringLiteral strTok.value, ts3)
          | .BOOLEAN_LITERAL =>
              match consume .BOOLEAN_LITERAL ts with
              | .error e => .error e
              | .ok (tok, ts1) =>
                  .ok (.booleanLiteral (tok.value = "true"), ts1)
          | .LPAREN =>
              match consume .LPAREN ts with
              | .error e => .error e
              | .ok (_, ts1) =>
                  match parseExpression fuel ts1 with
                  | .error e => .error e
                  | .ok (expr, ts2) =>
                      match consume .RPAREN ts2 with
                      | .error e => .error e
                      | .ok (_, ts3) => .ok (expr, ts3)
          | .LBRACKET => parseArrayLiteral fuel ts
          | .LBRACE => parseSetLiteral fuel ts
          | .IDENTIFIER => parseIdentifierExpression fuel ts
          | _ => .error (.unexpectedToken t.tokenType)

termination_by structural fuel _ => fuel
/-- `ExpressionParser.parse_identifier_expression`
(`src/frontend/parser/expressions.py` lines 176-190): an identifier
followed directly by `{` is an entity literal; otherwise the postfix
chain extends it. -/
def parseIdentifierExpression : Nat → List Token → PRes Expr
  | 0, _ => .error .outOfFuel
  | fuel + 1, ts =>
      match consume .IDENTIFIER ts with
      | .error e => .error e
      | .ok (tok, ts1) =>
          match currentTok ts1 with
          | .error e => .error e
          | .ok t =>
              if t.tokenType = .LBRACE then parseEntityLiteral fuel tok.value ts1
              else parsePostfixExpression fuel (.identifier tok.value) ts1

termination_by structural fuel _ => fuel
/-- `ExpressionParser.parse_function_call_expression`
(`src/frontend/parser/expressions.py` lines 216-231). -/
def parseFunctionCallExpression : Nat → Expr → List Token → PRes Expr
  | 0, _, _ => .error .outOfFuel
  | fuel + 1, callee, ts =>
      match consume .LPAREN ts with
      | .error e => .error e
      | .ok (_, ts1) =>
          match parseArguments fuel ts1 with
          | .error e => .error e
          | .ok (args, ts2) =>
              match consume .RPAREN ts2 with
              | .error e => .error e
              | .ok (_, ts3) => .ok (.functionCallExpression callee args, ts3)

termination_by structural fuel _ _ => fuel
/-- `ExpressionParser.parse_arguments`
(`src/frontend/parser/expressions.py` lines 233-246): empty before a `)`,
otherwise comma-separated expressions. -/
def parseArguments : Nat → List Token → PRes (List Expr)
  | 0, _ => .error .outOfFuel
  | fuel + 1, ts =>
      match currentTok ts with
      | .error e => .error e
      | .ok t =>
          if t.tokenType = .RPAREN then .ok ([], ts)
          else
            match parseExpression fuel ts with
            | .error e => .error e
            | .ok (first, ts1) => parseArgumentsLoop fuel [first] ts1

termination_by structural fuel _ => fuel
/-- The comma loop of `parse_arguments` (accumulator in order). -/
def parseArgumentsLoop : Nat → List Expr → List Token → PRes (List Expr)
  | 0, _, _ => .error .outOfFuel
  | fuel + 1, acc, ts =>
      match currentTok ts with
      | .error e => .error e
      | .ok t =>
          if t.tokenType = .COMMA then
            match consume .COMMA ts with
            | .error e => .error e
            | .ok (_, ts1) =>
                match parseExpression fuel ts1 with
                | .error e => .error e
                | .ok (next, ts2) => parseArgumentsLoop fuel (acc ++ [next]) ts2
          else .ok (acc, ts)

termination_by structural fuel _ _ => fuel
/-- `ExpressionParser.parse_array_literal`
(`src/frontend/parser/expressions.py` lines 248-266): the bracketed
elements, then the pipe grammar. -/
def parseArrayLiteral : Nat → List Token → PRes Expr
  | 0, _ => .error .outOfFuel
  | fuel + 1, ts =>
      match consume .LBRACKET ts with
      | .error e => .error e
      | .ok (_, ts1) =>
          match currentTok ts1 with
          | .error e => .error e
          | .ok t =>
              match
                (if t.tokenType = .RBRACKET then Except.ok (([] : List Expr), ts1)
                 else
                   match parseExpression fuel ts1 with
                   | .error e => .error e
                   | .ok (first, ts2) => parseArgumentsLoop fuel [first] ts2)
              with
              | .error e => .error e
              | .ok (elements, ts2) =>
                  match consume .RBRACKET ts2 with
                  | .error e => .error e
                  | .ok (_, ts3) => parsePipeExpression fuel elements ts3

termination_by structural fuel _ => fuel
/-- `ExpressionParser.parse_set_literal`
(`src/frontend/parser/expressions.py` lines 268-288): a colon after the
first element redirects to the map grammar. -/
def parseSetLiteral : Nat → List Token → PRes Expr
  | 0, _ => .error .outOfFuel
  | fuel + 1, ts =>
      match consume .LBRACE ts with
      | .error e => .error e
      | .ok (_, ts1) =>
          match currentTok ts1 with
          | .error e => .error e
          | .ok t =>
              if t.tokenType = .RBRACE then
                match consume .RBRACE ts1 with
                | .error e => .error e
                | .ok (_, ts2) => .ok (.setLiteral [], ts2)
              else
                match parseExpression fuel ts1 with
                | .error e => .error e
                | .ok (first, ts2) =>
                    match currentTok ts2 with
                    | .error e => .error e
                    | .ok t2 =>
                        if t2.tokenType = .COLON then
                          parseMapLiteral fuel first ts2
                        else
                          match parseArgumentsLoop fuel [first] ts2 with
                          | .error e => .error e
                          | .ok (elements, ts3) =>
                              match consume .RBRACE ts3 with
                              | .error e => .error e
                              | .ok (_, ts4) => .ok (.setLiteral elements, ts4)

termination_by structural fuel _ => fuel
/-- `ExpressionParser.parse_map_literal`
(`src/frontend/parser/expressions.py` lines 290-312). -/
def parseMapLiteral : Nat → Expr → List Token → PRes Expr
  | 0, _, _ => .error .outOfFuel
  | fuel + 1, firstKey, ts =>
      match consume .COLON ts with
      | .error e => .error e
      | .ok (_, ts1) =>
          match parseExpression fuel ts1 with
          | .error e => .error e
          | .ok (firstVal, ts2) =>
              match parseMapLiteralLoop fuel [(firstKey, firstVal)] ts2 with
              | .error e => .error e
              | .ok (elements, ts3) =>
                  match consume .RBRACE ts3 with
                  | .error e => .error e
                  | .ok (_, ts4) => .ok (.mapLiteral elements, ts4)

termination_by structural fuel _ _ => fuel
/-- The comma loop of `parse_map_literal`. -/
def parseMapLiteralLoop : Nat → List (Expr × Expr) → List Token →
    PRes (List (Expr × Expr))
  | 0, _, _ => .error .outOfFuel
  | fuel + 1, acc, ts =>
      match currentTok ts with
      | .error e => .error e
      | .ok t =>
          if t.tokenType = .COMMA then
            match consume .COMMA ts with
            | .error e => .error e
            | .ok (_, ts1) =>
                match parseExpression fuel ts1 with
                | .error e => .error e
                | .ok (key, ts2) =>
                    match consume .COLON ts2 with
                    | .error e => .error e
                    | .ok (_, ts3) =>
                        match parseExpression fuel ts3 with
                        | .error e => .error e
                        | .ok (value, ts4) =>
                            parseMapLiteralLoop fuel (acc ++ [(key, value)]) ts4
          else .ok (acc, ts)

termination_by structural fuel _ _ => fuel
/-- `ExpressionParser.parse_entity_literal`
(`src/frontend/parser/expressions.py` lines 314-329); Python collects the
attributes in an insertion-ordered dict, modelled as an appended list. -/
def parseEntityLiteral : Nat → String → List Token → PRes Expr
  | 0, _, _ => .error .outOfFuel
  | fuel + 1, template, ts =>
      match consume .LBRACE ts with
      | .error e => .error e
      | .ok (_, ts1) =>
          match parseEntityLiteralLoop fuel [] ts1 with
          | .error e => .error e
          | .ok (attrs, ts2) =>
              match consume .RBRACE ts2 with
              | .error e => .error e
              | .ok (_, ts3) => .ok (.entityLiteral template attrs, ts3)

termination_by structural fuel _ _ => fuel
/-- The attribute loop of `parse_entity_literal`. -/
def parseEntityLiteralLoop : Nat → List (String × Expr) → List Token →
    PRes (List (String × Expr))
  | 0, _, _ => .error .outOfFuel
  | fuel + 1, acc, ts =>
      match currentTok ts with
      | .error e => .error e
      | .ok t =>
          if t.tokenType = .RBRACE then .ok (acc, ts)
          else
            match consume .IDENTIFIER ts with
            | .error e => .error e
            | .ok (member, ts1) =>
                match consume .COLON ts1 with
                | .error e => .error e
                | .ok (_, ts2) =>
                    match parseExpression fuel ts2 with
                    | .error e => .error e
                    | .ok (init, ts3) =>
                        match currentTok ts3 with
                        | .error e => .error e
                        | .ok t3 =>
                            match
                              (if t3.tokenType = .COMMA then consume .COMMA ts3
                               else Except.ok (t3, ts3))
                            with
                            | .error e => .error e
                            | .ok (_, ts4) =>
                                parseEntityLiteralLoop fuel
                                  (acc ++ [(member.value, init)]) ts4

termination_by structural fuel _ _ => fuel
/-- `ExpressionParser.parse_index_expression`
(`src/frontend/parser/expressions.py` lines 331-344). -/
def parseIndexExpression : Nat → Expr → List Token → PRes Expr
  | 0, _, _ => .error .outOfFuel
  | fuel + 1, array, ts =>
      match consume .LBRACKET ts with
      | .error e => .error e
      | .ok (_, ts1) =>
          match parseExpression fuel ts1 with
          | .error e => .error e
          | .ok (index, ts2) =>
              match consume .RBRACKET ts2 with
              | .error e => .error e
              | .ok (_, ts3) => .ok (.indexExpression array index, ts3)

termination_by structural fuel _ _ => fuel
/-- `ExpressionParser.parse_pipe_expression`
(`src/frontend/parser/expressions.py` lines 346-376), entered with the
already-parsed bracketed elements: run the `>>` loop with no accumulated
call. -/
def parsePipeExpression : Nat → List Expr → List Token → PRes Expr
  | 0, _, _ => .error .outOfFuel
  | fuel + 1, args, ts => parsePipeLoop fuel none args ts

termination_by structural fuel _ _ => fuel
/-- The `while` loop of `parse_pipe_expression`: while the next token is
`>>` (and not end of input), consume `>> identifier`, seed the argument
list with the accumulated call — or, for the first segment, the bracketed
elements — extend it with parenthesized arguments when present, and build
the next call.  On exit, no segment at all leaves a plain `ArrayLiteral`. -/
def parsePipeLoop : Nat → Option Expr → List Expr → List Token → PRes Expr
  | 0, _, _, _ => .error .outOfFuel
  | fuel + 1, call, args, ts =>
      match currentTok ts with
      | .error e => .error e
      | .ok t =>
          if t.tokenType = .EOF || !(t.tokenType = .ARROW) then
            match call with
            | none => .ok (.arrayLiteral args, ts)
            | some c => .ok (c, ts)
          else
            match consume .ARROW ts with
            | .error e => .error e
            | .ok (_, ts1) =>
                match consume .IDENTIFIER ts1 with
                | .error e => .error e
                | .ok (identTok, ts2) =>
                    let newArgs := match call with
                      | some c => [c]
                      | none => args
                    match currentTok ts2 with
                    | .error e => .error e
                    | .ok t2 =>
                        match
                          (if t2.tokenType = .LPAREN then
                             match consume .LPAREN ts2 with
                             | .error e => .error e
                             | .ok (_, ts3) =>
                                 match parseArguments fuel ts3 with
                                 | .error e => .error e
                                 | .ok (extra, ts4) =>
                                     match consume .RPAREN ts4 with
                                     | .error e => .error e
                                     | .ok (_, ts5) => Except.ok (extra, ts5)
                           else Except.ok (([] : List Expr), ts2))
                        with
                        | .error e => .error e
                        | .ok (extra, ts3) =>
                            parsePipeLoop fuel
                              (some (.functionCallExpression
                                (.identifier identTok.value) (newArgs ++ extra)))
                              args ts3

termination_by structural fuel _ _ _ => fuel
/-- `ExpressionParser.parse_postfix_expression`
(`src/frontend/parser/expressions.py` lines 378-398): repeatedly extend
with call, index and member-access suffixes. -/
def parsePostfixExpression : Nat → Expr → List Token → PRes Expr
  | 0, _, _ => .error .outOfFuel
  | fuel + 1, expr, ts =>
      match currentTok ts with
      | .error e => .error e
      | .ok t =>
          match t.tokenType with
          | .LPAREN =>
              match parseFunctionCallExpression fuel expr ts with
              | .error e => .error e
              | .ok (expr1, ts1) => parsePostfixExpression fuel expr1 ts1
          | .LBRACKET =>
              match parseIndexExpression fuel expr ts with
              | .error e => .error e
              | .ok (expr1, ts1) => parsePostfixExpression fuel expr1 ts1
          | .DOT =>
              match parseMemberAccessExpression fuel expr ts with
              | .error e => .error e
              | .ok (expr1, ts1) => parsePostfixExpression fuel expr1 ts1
          | _ => .ok (expr, ts)

termination_by structural fuel _ _ => fuel
/-- `ExpressionParser.parse_member_access_expression`
(`src/frontend/parser/expressions.py` lines 400-417): `.name` becomes a
method call when a `(` follows. -/
def parseMemberAccessExpression : Nat → Expr → List Token → PRes Expr
  | 0, _, _ => .error .outOfFuel
  | fuel + 1, obj, ts =>
      match consume .DOT ts with
      | .error e => .error e
      | .ok (_, ts1) =>
          match consume .IDENTIFIER ts1 with
          | .error e => .error e
          | .ok (member, ts2) =>
              match currentTok ts2 with
              | .error e => .error e
              | .ok t =>
                  if t.tokenType = .LPAREN then
                    match consume .LPAREN ts2 with
                    | .error e => .error e
                    | .ok (_, ts3) =>
                        match parseArguments fuel ts3 with
                        | .error e => .error e
                        | .ok (args, ts4) =>
                            match consume .RPAREN ts4 with
                            | .error e => .error e
                            | .ok (_, ts5) =>
                                .ok (.methodCallExpression obj member.value args,
                                     ts5)
                  else .ok (.memberAccessExpression obj member.value, ts2)

termination_by structural fuel _ _ => fuel
end

mutual

/-- `Parser.parse_var_type` (`src/frontend/parser/parser.py` lines
101-138): `func` goes to the function-type grammar; otherwise a primitive
keyword, `infer`, or an identifier (a `CustomType` reference); then the
`[]` / `{...}` suffix loop. -/
def parseVarType : Nat → List Token → PRes VarType
  | 0, _ => .error .outOfFuel
  | fuel + 1, ts =>
      match currentTok ts with
      | .error e => .error e
      | .ok t =>
          if t.tokenType = .FUNC then parseFunctionType fuel ts
          else
            match
              (match t.tokenType with
               | .INT => consume .INT ts
               | .FLOAT => consume .FLOAT ts
               | .STR => consume .STR ts
               | .BOOL => consume .BOOL ts
               | .INFER => consume .INFER ts
               | .IDENTIFIER => consume .IDENTIFIER ts
               | _ => .error (.unexpectedToken t.tokenType))
            with
            | .error e => .error e
            | .ok (tok, ts1) =>
                let base := match tok.tokenType with
                  | .INFER => VarType.primitive .INFER
                  | .IDENTIFIER => VarType.customTypeIdentifier tok.value
                  | other => VarType.primitive other
                parseTypeSuffixLoop fuel base ts1

termination_by structural fuel _ => fuel
/-- The suffix `while` loop of `parse_var_type`: as long as the current
token is `[` or `{`, run the array-suffix loop and then (in the same
iteration, as in the Python source) the set/map-suffix loop. -/
def parseTypeSuffixLoop : Nat → VarType → List Token → PRes VarType
  | 0, _, _ => .error .outOfFuel
  | fuel + 1, varType, ts =>
      match currentTok ts with
      | .error e => .error e
      | .ok t =>
          if t.tokenType = .LBRACKET || t.tokenType = .LBRACE then
            match
              (if t.tokenType = .LBRACKET then parseArrayType fuel varType ts
               else Except.ok (varType, ts))
            with
            | .error e => .error e
            | .ok (vt1, ts1) =>
                match currentTok ts1 with
                | .error e => .error e
                | .ok t1 =>
                    match
                      (if t1.tokenType = .LBRACE then parseSetOrMapType fuel vt1 ts1
                       else Except.ok (vt1, ts1))
                    with
                    | .error e => .error e
                    | .ok (vt2, ts2) => parseTypeSuffixLoop fuel vt2 ts2
          else .ok (varType, ts)

termination_by structural fuel _ _ => fuel
/-- `Parser.parse_array_type` (`src/frontend/parser/parser.py` lines
140-157): each `[]` wraps the accumulated type. -/
def parseArrayType : Nat → VarType → List Token → PRes VarType
  | 0, _, _ => .error .outOfFuel
  | fuel + 1, newType, ts =>
      match currentTok ts with
      | .error e => .error e
      | .ok t =>
          if t.tokenType = .LBRACKET then
            match consume .LBRACKET ts with
            | .error e => .error e
            | .ok (_, ts1) =>
                match consume .RBRACKET ts1 with
                | .error e => .error e
                | .ok (_, ts2) => parseArrayType fuel (.array newType) ts2
          else .ok (newType, ts)

termination_by structural fuel _ _ => fuel
/-- `Parser.parse_set_or_map_type` (`src/frontend/parser/parser.py` lines
159-182).  NOTE: the loop body wraps `var_type` — the base type the
function was called with — rather than the accumulated `new_type`, so
within one run of consecutive brace suffixes every iteration overwrites
the previous wrap instead of nesting it. -/
def parseSetOrMapType : Nat → VarType → List Token → PRes VarType
  | 0, _, _ => .error .outOfFuel
  | fuel + 1, varType, ts => parseSetOrMapLoop fuel varType varType ts

termination_by structural fuel _ _ => fuel
/-- The `while` loop of `parse_set_or_map_type`; `varType` is the
original argument (wrapped each iteration, as in the source), `newType`
the loop accumulator that each iteration overwrites. -/
def parseSetOrMapLoop : Nat → VarType → VarType → List Token → PRes VarType
  | 0, _, _, _ => .error .outOfFuel
  | fuel + 1, varType, newType, ts =>
      match currentTok ts with
      | .error e => .error e
      | .ok t =>
          if t.tokenType = .LBRACE then
            match consume .LBRACE ts with
            | .error e => .error e
            | .ok (_, ts1) =>
                match currentTok ts1 with
                | .error e => .error e
                | .ok t1 =>
                    if t1.tokenType = .RBRACE then
                      match consume .RBRACE ts1 with
                      | .error e => .error e
                      | .ok (_, ts2) =>
                          parseSetOrMapLoop fuel varType (.set varType) ts2
                    else
                      match parseVarType fuel ts1 with
                      | .error e => .error e
                      | .ok (keyType, ts2) =>
                          match consume .RBRACE ts2 with
                          | .error e => .error e
                          | .ok (_, ts3) =>
                              parseSetOrMapLoop fuel varType
                                (.map keyType varType) ts3
          else .ok (newType, ts)

termination_by structural fuel _ _ _ => fuel
/-- `Parser.parse_return_type` (`src/frontend/parser/parser.py` lines
184-195): `void` or a variable type. -/
def parseReturnType : Nat → List Token → PRes VarType
  | 0, _ => .error .outOfFuel
  | fuel + 1, ts =>
      match currentTok ts with
      | .error e => .error e
      | .ok t =>
          if t.tokenType = .VOID then
            match consume .VOID ts with
            | .error e => .error e
            | .ok (_, ts1) => .ok (.primitive .VOID, ts1)
          else parseVarType fuel ts

termination_by structural fuel _ => fuel
/-- `Parser.parse_function_type` (`src/frontend/parser/parser.py` lines
197-223): `func < ReturnType , [ Type name ... ] >`. -/
def parseFunctionType : Nat → List Token → PRes VarType
  | 0, _ => .error .outOfFuel
  | fuel + 1, ts =>
      match consume .FUNC ts with
      | .error e => .error e
      | .ok (_, ts1) =>
          match consume .LT ts1 with
          | .error e => .error e
          | .ok (_, ts2) =>
              match parseReturnType fuel ts2 with
              | .error e => .error e
              | .ok (ret, ts3) =>
                  match consume .COMMA ts3 with
                  | .error e => .error e
                  | .ok (_, ts4) =>
                      match consume .LBRACKET ts4 with
                      | .error e => .error e
                      | .ok (_, ts5) =>
                          match parseFunctionTypeParams fuel [] ts5 with
                          | .error e => .error e
                          | .ok (params, ts6) =>
                              match consume .RBRACKET ts6 with
                              | .error e => .error e
                              | .ok (_, ts7) =>
                                  match consume .GT ts7 with
                                  | .error e => .error e
                                  | .ok (_, ts8) =>
                                      .ok (.function ret params, ts8)

termination_by structural fuel _ => fuel
/-- The parameter loop of `parse_function_type`. -/
def parseFunctionTypeParams : Nat → List (String × VarType) → List Token →
    PRes (List (String × VarType))
  | 0, _, _ => .error .outOfFuel
  | fuel + 1, acc, ts =>
      match currentTok ts with
      | .error e => .error e
      | .ok t =>
          if t.tokenType = .RBRACKET then .ok (acc, ts)
          else
            match parseVarType fuel ts with
            | .error e => .error e
            | .ok (vt, ts1) =>
                match consume .IDENTIFIER ts1 with
                | .error e => .error e
                | .ok (identTok, ts2) =>
                    match currentTok ts2 with
                    | .error e => .error e
                    | .ok t2 =>
                        match
                          (if t2.tokenType = .COMMA then consume .COMMA ts2
                           else Except.ok (t2, ts2))
                        with
                        | .error e => .error e
                        | .ok (_, ts3) =>
                            parseFunctionTypeParams fuel
                              (acc ++ [(identTok.value, vt)]) ts3

termination_by structural fuel _ _ => fuel
end

/-! ## Properties of the structural type-equality relation -/

mutual

theorem varEq_refl : (t : VarType) → varEq t t = true
  | .primitive _ => by simp [varEq]
  | .function r ps => by simp [varEq, varEq_refl r, varListEq_refl ps]
  | .array e => by simp [varEq, varEq_refl e]
  | .set e => by simp [varEq, varEq_refl e]
  | .map k v => by simp [varEq, varEq_refl k, varEq_refl v]
  | .customTypeIdentifier _ => by simp [varEq]
  | .template _ a m => by simp [varEq, varZipEq_refl a, varZipEq_refl m]
termination_by structural t => t

theorem varListEq_refl : (l : List (String × VarType)) → varListEq l l = true
  | [] => by simp [varListEq]
  | (_, t) :: xs => by simp [varListEq, varEq_refl t, varListEq_refl xs]
termination_by structural l => l

theorem varZipEq_refl : (l : List (String × VarType)) → varZipEq l l = true
  | [] => by simp [varZipEq]
  | (_, t) :: xs => by simp [varZipEq, varEq_refl t, varZipEq_refl xs]
termination_by structural l => l

end

theorem varEq_symm_all (n : Nat) :
    (∀ a b : VarType, sizeOf a + sizeOf b ≤ n → varEq a b = varEq b a) ∧
    (∀ xs ys : List (String × VarType), sizeOf xs + sizeOf ys ≤ n →
      varListEq xs ys = varListEq ys xs ∧ varZipEq xs ys = varZipEq ys xs) := by
  induction n using Nat.strong_induction_on with
  | _ n ih =>
    have IHv : ∀ m, m < n → ∀ a b : VarType,
        sizeOf a + sizeOf b ≤ m → varEq a b = varEq b a :=
      fun m hm => (ih m hm).1
    have IHl : ∀ m, m < n → ∀ xs ys : List (String × VarType),
        sizeOf xs + sizeOf ys ≤ m →
        varListEq xs ys = varListEq ys xs ∧ varZipEq xs ys = varZipEq ys xs :=
      fun m hm => (ih m hm).2
    constructor
    · intro a b hn
      cases a <;> cases b <;> try (simp [varEq, eq_comm]; done)
      case function.function r ps r' ps' =>
        simp only [VarType.function.sizeOf_spec] at hn
        have h1 := IHv (sizeOf r + sizeOf r') (by omega) r r' le_rfl
        have h2 := (IHl (sizeOf ps + sizeOf ps') (by omega) ps ps' le_rfl).1
        simp [varEq, h1, h2]
      case array.array e e' =>
        simp only [VarType.array.sizeOf_spec] at hn
        have h1 := IHv (sizeOf e + sizeOf e') (by omega) e e' le_rfl
        simp [varEq, h1]; ac_rfl
      case set.set e e' =>
        simp only [VarType.set.sizeOf_spec] at hn
        have h1 := IHv (sizeOf e + sizeOf e') (by omega) e e' le_rfl
        simp [varEq, h1]; ac_rfl
      case map.map k v k' v' =>
        simp only [VarType.map.sizeOf_spec] at hn
        have h1 := IHv (sizeOf k + sizeOf k') (by omega) k k' le_rfl
        have h2 := IHv (sizeOf v + sizeOf v') (by omega) v v' le_rfl
        simp [varEq, h1, h2]; ac_rfl
      case template.template id a m id' a' m' =>
        simp only [VarType.template.sizeOf_spec] at hn
        have h1 := (IHl (sizeOf a + sizeOf a') (by omega) a a' le_rfl).2
        have h2 := (IHl (sizeOf m + sizeOf m') (by omega) m m' le_rfl).2
        simp [varEq, h1, h2]
    · intro xs ys hn
      cases xs <;> cases ys <;> try (simp [varListEq, varZipEq]; done)
      rename_i p xs' q ys'
      obtain ⟨pn, pt⟩ := p
      obtain ⟨qn, qt⟩ := q
      simp only [List.cons.sizeOf_spec, Prod.mk.sizeOf_spec] at hn
      have h1 := IHv (sizeOf pt + sizeOf qt) (by omega) pt qt le_rfl
      have h2 := IHl (sizeOf xs' + sizeOf ys') (by omega) xs' ys' le_rfl
      simp [varListEq, varZipEq, h1, h2.1, h2.2, eq_comm]

theorem varEq_symm (a b : VarType) : varEq a b = varEq b a :=
  (varEq_symm_all (sizeOf a + sizeOf b)).1 a b le_rfl

/-- C10: the structural type-equality relation with the empty-literal
`VoidType` wildcard is reflexive and symmetric, but the wildcard breaks
transitivity: whenever `T` and `U` are not themselves `VoidType` and are
inequivalent, `ArrayType(T)` equals `ArrayType(Void)` and `ArrayType(Void)`
equals `ArrayType(U)` while `ArrayType(T)` and `ArrayType(U)` are not
equal; the same holds for `SetType`. -/
theorem c10_type_equality_not_transitive (T U : VarType)
    (hTU : varEq T U = false) (hT : isVoidCheck T = false)
    (hU : isVoidCheck U = false) :
    (∀ t, varEq t t = true) ∧
    (∀ a b, varEq a b = varEq b a) ∧
    varEq (.array T) (.array (.primitive .VOID)) = true ∧
    varEq (.array (.primitive .VOID)) (.array U) = true ∧
    varEq (.array T) (.array U) = false ∧
    varEq (.set T) (.set (.primitive .VOID)) = true ∧
    varEq (.set (.primitive .VOID)) (.set U) = true ∧
    varEq (.set T) (.set U) = false := by
  have hvoid : isVoidCheck (.primitive .VOID) = true := rfl
  refine ⟨varEq_refl, varEq_symm, ?_, ?_, ?_, ?_, ?_, ?_⟩ <;>
    simp [varEq, hTU, hT, hU, hvoid]

/-- Witness for C10 at `T = int`, `U = str`. -/
theorem c10_type_equality_not_transitive_witness :
    varEq (.array (.primitive .INT)) (.array (.primitive .VOID)) = true ∧
    varEq (.array (.primitive .VOID)) (.array (.primitive .STR)) = true ∧
    varEq (.array (.primitive .INT)) (.array (.primitive .STR)) = false := by
  have h := c10_type_equality_not_transitive (.primitive .INT)
    (.primitive .STR) (by decide) (by decide) (by decide)
  exact ⟨h.2.2.1, h.2.2.2.1, h.2.2.2.2.1⟩

/-! ## Concrete token material for evaluation theorems -/

/-- Shorthand for a token. -/
def mkToken (t : TokenType) (v : String) : Token := ⟨t, v⟩

/-- The end-of-file sentinel the lexer appends. -/
def eofToken : Token := ⟨.EOF, ""⟩

/-! ## C5 — type-suffix wrapping -/

/-- C5 (code bug): `parse_var_type` wraps `[]` suffixes around the
accumulated type, so `int[][]` is `Array(Array(int))`; but the loop of
`parse_set_or_map_type` wraps the original base type instead of the
accumulator, so `int{}{}` parses as `Set(int)` — not the
`Set(Set(int))` the spec's left-to-right wrapping rule demands — and
`int{str}{}` parses as `Set(int)` rather than `Set(Map(str,int))`. -/
theorem c5_type_suffix_wrapping_eval :
    parseVarType 30 [mkToken .INT "int", mkToken .LBRACKET "[",
        mkToken .RBRACKET "]", mkToken .LBRACKET "[", mkToken .RBRACKET "]",
        eofToken] =
      .ok (.array (.array (.primitive .INT)), [eofToken]) ∧
    parseVarType 30 [mkToken .INT "int", mkToken .LBRACE "\x7b",
        mkToken .RBRACE "\x7d", mkToken .LBRACE "\x7b", mkToken .RBRACE "\x7d",
        eofToken] =
      .ok (.set (.primitive .INT), [eofToken]) ∧
    parseVarType 30 [mkToken .INT "int", mkToken .LBRACE "\x7b",
        mkToken .STR "str", mkToken .RBRACE "\x7d", mkToken .LBRACE "\x7b",
        mkToken .RBRACE "\x7d", eofToken] =
      .ok (.set (.primitive .INT), [eofToken]) ∧
    (VarType.set (.primitive .INT) ≠ .set (.set (.primitive .INT))) ∧
    (VarType.set (.primitive .INT) ≠ .set (.map (.primitive .STR) (.primitive .INT))) := by
  refine ⟨rfl, rfl, rfl, ?_, ?_⟩ <;> simp

/-! ## C7 — assignment targets -/

/-- C7 (code bug): after `=`, an already-parsed `Identifier` or
`IndexExpression` left side yields an assignment node, but a
`MemberAccessExpression` left side — which the spec and the repository's
own test `test_property_assignment_expression` (`foo.bar.baz.qux = 5;`)
expect to be legal — raises the invalid-left-hand-side `SyntaxError`. -/
theorem c7_member_access_assignment_rejected :
    parseExpression 60 [mkToken .IDENTIFIER "foo", mkToken .DOT ".",
        mkToken .IDENTIFIER "bar", mkToken .DOT ".",
        mkToken .IDENTIFIER "baz", mkToken .DOT ".",
        mkToken .IDENTIFIER "qux", mkToken .ASSIGN "=",
        mkToken .INT_LITERAL "5", eofToken] =
      .error .invalidAssignLeft ∧
    parseExpression 60 [mkToken .IDENTIFIER "foo", mkToken .ASSIGN "=",
        mkToken .INT_LITERAL "5", eofToken] =
      .ok (.assignmentExpression (.identifier "foo") (.numericLiteral 5),
           [eofToken]) ∧
    parseExpression 60 [mkToken .IDENTIFIER "foo", mkToken .LBRACKET "[",
        mkToken .INT_LITERAL "0", mkToken .RBRACKET "]",
        mkToken .ASSIGN "=", mkToken .INT_LITERAL "5", eofToken] =
      .ok (.assignmentExpression
            (.indexExpression (.identifier "foo") (.numericLiteral 0))
            (.numericLiteral 5),
           [eofToken]) := by
  exact ⟨rfl, rfl, rfl⟩

/-! ## C2 — halt/skip and loop scopes -/

/-- Modelled from the spec: the error condition claim C2 ascribes to
halt/skip — "walking scopes outward from the innermost, a
function-declaration scope is met before any while/range/each scope". -/
def functionScopeMetBeforeLoop : List Scope → Bool
  | [] => false
  | sc :: rest =>
      if SymbolTable.isFunctionScope sc then true
      else if SymbolTable.isLoopParent sc then false
      else functionScopeMetBeforeLoop rest

/-- C2 counterexample: a `halt` dispatched at the global scope alone —
reachable, no loop scope and no function scope anywhere, so the claim's
condition ("a function-declaration scope is met before any loop scope")
is false and the claim predicts success — yet the analyzer raises the
halt-outside-loop `SyntaxError`. -/
theorem c2_halt_counterexample :
    functionScopeMetBeforeLoop initialSymbolTable.scopes = false ∧
    initialSymbolTable.isReachable = true ∧
    analyzeStmtD 5 .haltStatement initialSymbolTable = .error .haltOutsideLoop ∧
    analyzeStmtD 5 .skipStatement initialSymbolTable = .error .skipOutsideLoop := by
  exact ⟨rfl, rfl, rfl, rfl⟩

theorem isReachable_setUnreachable (st : SymbolTable)
    (hne : st.scopes ≠ []) : st.setUnreachable.isReachable = false := by
  match st with
  | ⟨[]⟩ => exact absurd rfl hne
  | ⟨sc :: rest⟩ => simp [SymbolTable.setUnreachable, SymbolTable.isReachable]

theorem scope_not_function_and_loop (sc : Scope) :
    SymbolTable.isFunctionScope sc = true →
    SymbolTable.isLoopParent sc = false := by
  obtain ⟨sy, pn, re⟩ := sc
  intro h
  cases pn with
  | none => exact absurd h (by simp [SymbolTable.isFunctionScope])
  | some s =>
      cases s <;>
        first
          | rfl
          | exact absurd h (by simp [SymbolTable.isFunctionScope])

theorem isLoopScopeScopes_iff (scopes : List Scope) :
    SymbolTable.isLoopScopeScopes scopes = true ↔
    ∃ pre sc rest, scopes = pre ++ sc :: rest ∧
      SymbolTable.isLoopParent sc = true ∧
      ∀ s ∈ pre, SymbolTable.isFunctionScope s = false ∧
        SymbolTable.isLoopParent s = false := by
  induction scopes with
  | nil =>
      simp only [SymbolTable.isLoopScopeScopes, Bool.false_eq_true, false_iff]
      rintro ⟨pre, sc, rest, heq, _, _⟩
      exact absurd heq (by cases pre <;> simp)
  | cons sc rest ih =>
      rw [SymbolTable.isLoopScopeScopes]
      cases hf : SymbolTable.isFunctionScope sc with
      | true =>
          simp only [if_true, Bool.false_eq_true, false_iff]
          rintro ⟨pre, sc', rest', heq, hloop, hpre⟩
          cases pre with
          | nil =>
              simp only [List.nil_append, List.cons.injEq] at heq
              obtain ⟨h1, _⟩ := heq
              subst h1
              exact absurd hloop (by simp [scope_not_function_and_loop sc hf])
          | cons p pre' =>
              simp only [List.cons_append, List.cons.injEq] at heq
              obtain ⟨h1, _⟩ := heq
              subst h1
              have := (hpre sc (by simp)).1
              rw [hf] at this
              cases this
      | false =>
          simp only [Bool.false_eq_true, if_false]
          cases hl : SymbolTable.isLoopParent sc with
          | true =>
              simp only [if_true, true_iff]
              exact ⟨[], sc, rest, by simp, hl, by simp⟩
          | false =>
              simp only [Bool.false_eq_true, if_false]
              rw [ih]
              constructor
              · rintro ⟨pre, sc', rest', heq, hloop, hpre⟩
                refine ⟨sc :: pre, sc', rest', by simp [heq], hloop, ?_⟩
                intro s hs
                rcases List.mem_cons.mp hs with h | h
                · subst h
                  exact ⟨hf, hl⟩
                · exact hpre s h
              · rintro ⟨pre, sc', rest', heq, hloop, hpre⟩
                cases pre with
                | nil =>
                    simp only [List.nil_append, List.cons.injEq] at heq
                    obtain ⟨h1, _⟩ := heq
                    subst h1
                    rw [hl] at hloop
                    cases hloop
                | cons p pre' =>
                    simp only [List.cons_append, List.cons.injEq] at heq
                    obtain ⟨h1, h2⟩ := heq
                    exact ⟨pre', sc', rest', h2, hloop,
                      fun s hs => hpre s (by simp [hs])⟩

/-- C2 (amended): for a `HaltStatement` or `SkipStatement` dispatched in a
reachable scope, analysis raises the not-valid-outside-a-loop
`SyntaxError` exactly when no while/range/each scope is met strictly
before the first function-declaration scope — in particular also when no
loop scope exists at all; otherwise the statement succeeds and marks the
innermost scope unreachable, so a following statement in the same block
raises the unreachable-code error. -/
theorem c2_halt_skip_loop_only (f : Nat) (st : SymbolTable) (s2 : Stmt)
    (rest : List Stmt) (hne : st.scopes ≠ [])
    (hreach : st.isReachable = true) :
    (st.isLoopScope = true ↔
      ∃ pre sc post, st.scopes = pre ++ sc :: post ∧
        SymbolTable.isLoopParent sc = true ∧
        ∀ s ∈ pre, SymbolTable.isFunctionScope s = false ∧
          SymbolTable.isLoopParent s = false) ∧
    (st.isLoopScope = true →
      analyzeStmtD (f + 1) .haltStatement st =
        .ok (.primitive .VOID, st.setUnreachable) ∧
      analyzeStmtD (f + 1) .skipStatement st =
        .ok (.primitive .VOID, st.setUnreachable) ∧
      analyzeStmtSeq (f + 2) (.haltStatement :: s2 :: rest) st =
        .error .unreachableCode) ∧
    (st.isLoopScope = false →
      analyzeStmtD (f + 1) .haltStatement st = .error .haltOutsideLoop ∧
      analyzeStmtD (f + 1) .skipStatement st = .error .skipOutsideLoop) := by
  refine ⟨isLoopScopeScopes_iff st.scopes, ?_, ?_⟩
  · intro hl
    have hhalt : analyzeStmtD (f + 1) .haltStatement st =
        .ok (.primitive .VOID, st.setUnreachable) := by
      simp [analyzeStmtD, hreach, analyzeHaltStatement, hl, resolveNodeType]
    refine ⟨hhalt, ?_, ?_⟩
    · simp [analyzeStmtD, hreach, analyzeSkipStatement, hl, resolveNodeType]
    · show analyzeStmtSeq ((f + 1) + 1) _ _ = _
      rw [analyzeStmtSeq]
      simp only [hreach, Bool.not_true, Bool.false_eq_true, if_false]
      rw [hhalt]
      show analyzeStmtSeq (f + 1) (s2 :: rest) st.setUnreachable = _
      rw [analyzeStmtSeq]
      simp [isReachable_setUnreachable st hne]
  · intro hl
    constructor
    · simp [analyzeStmtD, hreach, analyzeHaltStatement, hl]
    · simp [analyzeStmtD, hreach, analyzeSkipStatement, hl]

/-- Witness for C2 (amended): a halt inside a while-statement scope over
the global scope succeeds, marks that scope unreachable, and makes a
following echo unreachable; with the loop scope absent both statements
raise. -/
theorem c2_halt_skip_loop_only_witness :
    analyzeStmtD 1 .haltStatement
        ⟨[⟨[], some (.whileStatement (.booleanLiteral true) []), true⟩,
          ⟨[], none, true⟩]⟩ =
      .ok (.primitive .VOID,
        ⟨[⟨[], some (.whileStatement (.booleanLiteral true) []), false⟩,
          ⟨[], none, true⟩]⟩) ∧
    analyzeStmtSeq 2
        [.haltStatement, .echoStatement (.numericLiteral 1)]
        ⟨[⟨[], some (.whileStatement (.booleanLiteral true) []), true⟩,
          ⟨[], none, true⟩]⟩ =
      .error .unreachableCode := by
  have h := c2_halt_skip_loop_only 0
    ⟨[⟨[], some (.whileStatement (.booleanLiteral true) []), true⟩,
      ⟨[], none, true⟩]⟩
    (.echoStatement (.numericLiteral 1)) [] (by simp) (by rfl)
  have h2 := h.2.1 (by rfl)
  exact ⟨h2.1, h2.2.2⟩

/-! ## C3 — function-limited lookup -/

/-- C3 counterexample: the function's own name is defined in the scope
enclosing the function, not in the function-boundary scope, so — contrary
to the claim's "including ... the function's own name" — a
function-limited lookup of it from inside the body finds nothing: an
identifier statement naming the enclosing function raises the
not-declared `NameError`, and on the very scope stack the analyzer builds
the limited lookup is `none` while the unlimited one finds the symbol. -/
theorem c3_function_name_not_visible_counterexample :
    analyzeStmtD 20
        (.functionDeclaration "f" (.primitive .VOID) []
          [.expressionStatement (.identifier "f")])
        initialSymbolTable =
      .error (.variableNotDeclared "f") ∧
    SymbolTable.lookup
        ⟨[⟨[], some (.functionDeclaration "f" (.primitive .VOID) []
            [.expressionStatement (.identifier "f")]), true⟩,
          ⟨[⟨"f", .function (.primitive .VOID) []⟩], none, true⟩]⟩
        "f" true = none ∧
    SymbolTable.lookup
        ⟨[⟨[], some (.functionDeclaration "f" (.primitive .VOID) []
            [.expressionStatement (.identifier "f")]), true⟩,
          ⟨[⟨"f", .function (.primitive .VOID) []⟩], none, true⟩]⟩
        "f" false = some ⟨"f", .function (.primitive .VOID) []⟩ := by
  exact ⟨rfl, rfl, rfl⟩

/-- C3 (amended): when the scope stack decomposes as inner scopes `pre`
(none of them function scopes) above the nearest function-boundary scope
`fb` above arbitrary outer scopes `post`, a function-limited lookup
searches exactly `pre ++ [fb]` innermost-first: a symbol found at or
inside the boundary — a parameter defined in `fb` included — is returned,
and a name bound only in `post` (locals of enclosing functions and
globals included) yields `none`, so an identifier read there raises the
not-declared `NameError`.  (The function's own name is defined in the
enclosing scope, hence not visible — see the counterexample.) -/
theorem c3_lookup_limited_to_function (pre : List Scope) (fb : Scope)
    (post : List Scope) (name : String)
    (hpre : ∀ s ∈ pre, SymbolTable.isFunctionScope s = false)
    (hfb : SymbolTable.isFunctionScope fb = true) :
    SymbolTable.lookup ⟨pre ++ fb :: post⟩ name true =
      SymbolTable.lookupScopes (pre ++ [fb]) name false ∧
    (SymbolTable.lookupScopes (pre ++ [fb]) name false = none →
      analyzeIdentifier name ⟨pre ++ fb :: post⟩ =
        .error (.variableNotDeclared name)) := by
  have key : SymbolTable.lookupScopes (pre ++ fb :: post) name true =
      SymbolTable.lookupScopes (pre ++ [fb]) name false := by
    induction pre with
    | nil =>
        rw [List.nil_append, List.nil_append,
          SymbolTable.lookupScopes, SymbolTable.lookupScopes]
        cases h : fb.symbols.find? (fun s => s.name = name) with
        | some s => rfl
        | none => simp [hfb, SymbolTable.lookupScopes]
    | cons p pre' ih =>
        have hp := hpre p (by simp)
        have ih' := ih (fun s hs => hpre s (by simp [hs]))
        rw [List.cons_append, List.cons_append,
          SymbolTable.lookupScopes, SymbolTable.lookupScopes]
        cases h : p.symbols.find? (fun s => s.name = name) with
        | some s => rfl
        | none => simp [hp, ih']
  refine ⟨key, fun hnone => ?_⟩
  rw [analyzeIdentifier, SymbolTable.lookup, key, hnone]

/-- Witness for C3 (amended): a parameter found at the boundary scope, and
a global hidden behind it. -/
theorem c3_lookup_limited_to_function_witness :
    SymbolTable.lookup
        ⟨[⟨[], some (.ifStatement (.booleanLiteral true) [] none), true⟩,
          ⟨[⟨"p", .primitive .INT⟩],
            some (.functionDeclaration "g" (.primitive .VOID)
              [("p", .primitive .INT)] []), true⟩,
          ⟨[⟨"x", .primitive .STR⟩], none, true⟩]⟩
        "p" true = some ⟨"p", .primitive .INT⟩ ∧
    SymbolTable.lookup
        ⟨[⟨[], some (.ifStatement (.booleanLiteral true) [] none), true⟩,
          ⟨[⟨"p", .primitive .INT⟩],
            some (.functionDeclaration "g" (.primitive .VOID)
              [("p", .primitive .INT)] []), true⟩,
          ⟨[⟨"x", .primitive .STR⟩], none, true⟩]⟩
        "x" true = none ∧
    analyzeIdentifier "x"
        ⟨[⟨[], some (.ifStatement (.booleanLiteral true) [] none), true⟩,
          ⟨[⟨"p", .primitive .INT⟩],
            some (.functionDeclaration "g" (.primitive .VOID)
              [("p", .primitive .INT)] []), true⟩,
          ⟨[⟨"x", .primitive .STR⟩], none, true⟩]⟩ =
      .error (.variableNotDeclared "x") := by
  have h1 := c3_lookup_limited_to_function
    [⟨[], some (.ifStatement (.booleanLiteral true) [] none), true⟩]
    ⟨[⟨"p", .primitive .INT⟩],
      some (.functionDeclaration "g" (.primitive .VOID)
        [("p", .primitive .INT)] []), true⟩
    [⟨[⟨"x", .primitive .STR⟩], none, true⟩] "p"
    (by intro s hs; simp at hs; subst hs; rfl) rfl
  have h2 := c3_lookup_limited_to_function
    [⟨[], some (.ifStatement (.booleanLiteral true) [] none), true⟩]
    ⟨[⟨"p", .primitive .INT⟩],
      some (.functionDeclaration "g" (.primitive .VOID)
        [("p", .primitive .INT)] []), true⟩
    [⟨[⟨"x", .primitive .STR⟩], none, true⟩] "x"
    (by intro s hs; simp at hs; subst hs; rfl) rfl
  simp only [List.cons_append, List.nil_append] at h1 h2
  refine ⟨?_, ?_, h2.2 (by rfl)⟩
  · rw [h1.1]; rfl
  · rw [h2.1]; rfl

/-! ## C8 — redeclaration versus shadowing -/

theorem lookupScopes_name (scopes : List Scope) (name : String)
    (limit : Bool) (s : Symbol)
    (h : SymbolTable.lookupScopes scopes name limit = some s) :
    s.name = name := by
  induction scopes with
  | nil => simp [SymbolTable.lookupScopes] at h
  | cons sc rest ih =>
      rw [SymbolTable.lookupScopes] at h
      cases hf : sc.symbols.find? (fun x => x.name = name) with
      | some x =>
          rw [hf] at h
          cases h
          simpa using List.find?_some hf
      | none =>
          rw [hf] at h
          by_cases hb : (limit && SymbolTable.isFunctionScope sc) = true
          · rw [if_pos hb] at h; cases h
          · rw [if_neg hb] at h; exact ih h

theorem getScope_head_iff (sc : Scope) (rest : List Scope) (sym : Symbol) :
    SymbolTable.getScope ⟨sc :: rest⟩ sym = some 0 ↔
      SymbolTable.scopeBinds sc sym.name = true := by
  rw [SymbolTable.getScope]
  show SymbolTable.getScopeScopes (sc :: rest) sym.name = some 0 ↔ _
  rw [SymbolTable.getScopeScopes]
  cases hb : SymbolTable.scopeBinds sc sym.name with
  | true => simp [hb]
  | false =>
      simp only [Bool.false_eq_true, if_false]
      constructor
      · intro h
        cases hfi : SymbolTable.getScopeScopes rest sym.name with
        | none => rw [hfi] at h; cases h
        | some n => rw [hfi] at h; simp at h
      · intro h; cases h

/-- C8: when a variable declaration's initializer analyzes successfully
and a function-limited lookup of the declared name finds an existing
symbol, analysis always raises: the redeclare `NameError` exactly when the
symbol's owning scope is the current (innermost) scope — equivalently,
when the innermost scope binds the name — and the shadow `NameError`
otherwise; the two cases are distinguished by the index `get_scope`
reports for the existing symbol's owning scope. -/
theorem c8_redeclare_vs_shadow (f : Nat) (name : String) (ty : VarType)
    (init : Expr) (st st1 : SymbolTable) (initT : VarType) (sym : Symbol)
    (hinit : analyzeExprD f init st = .ok (initT, st1))
    (hfound : st1.lookup name true = some sym) :
    ((∃ sc rest, st1.scopes = sc :: rest ∧
        SymbolTable.scopeBinds sc name = true) →
      analyzeVariableDeclaration (f + 1) name ty init st =
        .error (.cannotRedeclareVariable name)) ∧
    ((∀ sc rest, st1.scopes = sc :: rest →
        SymbolTable.scopeBinds sc name = false) →
      analyzeVariableDeclaration (f + 1) name ty init st =
        .error (.cannotShadowVariable name)) ∧
    (∀ sc rest, st1.scopes = sc :: rest →
      (st1.getScope sym = some 0 ↔ SymbolTable.scopeBinds sc name = true)) := by
  have hname : sym.name = name := lookupScopes_name _ _ _ _ hfound
  have hstep : ∀ r, analyzeVariableDeclaration (f + 1) name ty init st = r ↔
      (match st1.getScope sym with
       | some 0 => Except.error (AErr.cannotRedeclareVariable name)
       | _ => Except.error (AErr.cannotShadowVariable name)) = r := by
    intro r
    rw [analyzeVariableDeclaration, hinit]
    show (match st1.lookup name true with
          | some sym => _
          | none => _) = r ↔ _
    rw [hfound]
  refine ⟨?_, ?_, ?_⟩
  · rintro ⟨sc, rest, hscopes, hbind⟩
    rw [hstep]
    have : st1.getScope sym = some 0 := by
      match st1, hscopes with
      | ⟨_⟩, rfl => exact (getScope_head_iff sc rest sym).mpr (hname ▸ hbind)
    rw [this]
  · intro hnb
    rw [hstep]
    cases hg : st1.getScope sym with
    | none => rfl
    | some n =>
        cases n with
        | zero =>
            match st1, hg with
            | ⟨[]⟩, hg => simp [SymbolTable.getScope, SymbolTable.getScopeScopes] at hg
            | ⟨sc :: rest⟩, hg =>
                have := (getScope_head_iff sc rest sym).mp hg
                rw [hname] at this
                rw [hnb sc rest rfl] at this
                cases this
        | succ m => rfl
  · intro sc rest hscopes
    match st1, hscopes with
    | ⟨_⟩, rfl => simpa [hname] using getScope_head_iff sc rest sym

/-- Witness for C8: redeclaring `x` in the scope that holds it raises the
redeclare error; declaring `x` when only the enclosing scope holds it
raises the shadow error. -/
theorem c8_redeclare_vs_shadow_witness :
    analyzeVariableDeclaration 2 "x" (.primitive .INT) (.numericLiteral 2)
        ⟨[⟨[⟨"x", .primitive .INT⟩], none, true⟩]⟩ =
      .error (.cannotRedeclareVariable "x") ∧
    analyzeVariableDeclaration 2 "x" (.primitive .INT) (.numericLiteral 2)
        ⟨[⟨[], some (.blockStatement []), true⟩,
          ⟨[⟨"x", .primitive .INT⟩], none, true⟩]⟩ =
      .error (.cannotShadowVariable "x") := by
  constructor
  · exact (c8_redeclare_vs_shadow 1 "x" (.primitive .INT) (.numericLiteral 2)
      ⟨[⟨[⟨"x", .primitive .INT⟩], none, true⟩]⟩
      ⟨[⟨[⟨"x", .primitive .INT⟩], none, true⟩]⟩
      (.primitive .INT) ⟨"x", .primitive .INT⟩ rfl rfl).1
      ⟨⟨[⟨"x", .primitive .INT⟩], none, true⟩, [], rfl, rfl⟩
  · exact (c8_redeclare_vs_shadow 1 "x" (.primitive .INT) (.numericLiteral 2)
      ⟨[⟨[], some (.blockStatement []), true⟩,
        ⟨[⟨"x", .primitive .INT⟩], none, true⟩]⟩
      ⟨[⟨[], some (.blockStatement []), true⟩,
        ⟨[⟨"x", .primitive .INT⟩], none, true⟩]⟩
      (.primitive .INT) ⟨"x", .primitive .INT⟩ rfl rfl).2.1
      (by rintro sc rest ⟨rfl, rfl⟩; rfl)

/-! ## C1 — if-statement rules -/

/-- C1: for an `IfStatement` whose condition analyzes to `bool`,
dispatched in a reachable scope: a literal-`true` condition (once the then
block analyzes) raises the unreachable-else `SyntaxError` exactly when an
else block is present; a literal-`false` condition raises the
unreachable-if `SyntaxError` exactly when the then block is non-empty
(analyzing the else block otherwise); any other condition has both
branches analyzed in their own scopes — the then block first — and the
enclosing scope is marked unreachable exactly when both branches end
unreachable, an absent else branch counting as reachable. -/
theorem c1_if_statement_rules (f : Nat) (cond : Expr) (thn : List Stmt)
    (els : Option (List Stmt)) (st st1 : SymbolTable)
    (hreach : st.isReachable = true)
    (hcond : analyzeExprD f cond st = .ok (.primitive .BOOL, st1)) :
    ((cond = .booleanLiteral true) →
      ∀ tr st2, analyzeThenBlock f cond thn els st1 = .ok (tr, st2) →
        (els.isSome →
          analyzeIfStatement (f + 1) cond thn els st =
            .error .unreachableElseBlock) ∧
        (els = none →
          analyzeIfStatement (f + 1) cond thn els st =
            .ok (.primitive .VOID, st2))) ∧
    ((cond = .booleanLiteral false) →
      (thn ≠ [] →
        analyzeIfStatement (f + 1) cond thn els st =
          .error .unreachableIfBlock) ∧
      (thn = [] →
        ∀ er st2, analyzeElseBlock f cond thn els st1 = .ok (er, st2) →
          analyzeIfStatement (f + 1) cond thn els st =
            .ok (.primitive .VOID, st2))) ∧
    ((∀ b, cond ≠ .booleanLiteral b) →
      ∀ tr st2 er st3,
        analyzeThenBlock f cond thn els st1 = .ok (tr, st2) →
        analyzeElseBlock f cond thn els st2 = .ok (er, st3) →
        analyzeIfStatement (f + 1) cond thn els st =
          .ok (.primitive .VOID,
               if !tr && !er then st3.setUnreachable else st3) ∧
        (els = none → er = true)) := by
  have hbb : varEq (.primitive .BOOL) (.primitive .BOOL) = true := rfl
  refine ⟨?_, ?_, ?_⟩
  · rintro rfl tr st2 hthen
    constructor
    · intro hsome
      match els, hsome with
      | some b, _ =>
          rw [analyzeIfStatement]
          simp only [hreach, Bool.not_true, Bool.false_eq_true, if_false,
            hcond, hbb, hthen]
    · rintro rfl
      rw [analyzeIfStatement]
      simp only [hreach, Bool.not_true, Bool.false_eq_true, if_false,
        hcond, hbb, hthen]
  · rintro rfl
    constructor
    · intro hne
      match thn, hne with
      | s :: thn', _ =>
          rw [analyzeIfStatement]
          simp only [hreach, Bool.not_true, Bool.false_eq_true, if_false,
            hcond, hbb]
    · rintro rfl er st2 helse
      rw [analyzeIfStatement]
      simp only [hreach, Bool.not_true, Bool.false_eq_true, if_false,
        hcond, hbb, helse]
  · intro hnotlit tr st2 er st3 hthen helse
    have habsent : els = none → er = true := by
      rintro rfl
      cases f with
      | zero =>
          rw [analyzeElseBlock] at helse
          exact absurd helse (by simp)
      | succ g =>
          rw [analyzeElseBlock] at helse
          have := helse.symm
          simp only [Except.ok.injEq, Prod.mk.injEq] at this
          exact this.1
    refine ⟨?_, habsent⟩
    cases cond with
    | booleanLiteral b => exact absurd rfl (hnotlit b)
    | _ =>
        rw [analyzeIfStatement]
        simp only [hreach, Bool.not_true, Bool.false_eq_true, if_false,
          hcond, hbb, hthen, helse]

/-- Witness for C1: an `if (x) { halt; }` with boolean variable `x` inside
a while scope — both branches end: then-block unreachable (halt), absent
else reachable — leaves the enclosing scope reachable, while
`if (true) { } else { }` raises the unreachable-else error. -/
theorem c1_if_statement_rules_witness :
    analyzeIfStatement 5 (.identifier "x") [.haltStatement] none
        ⟨[⟨[⟨"x", .primitive .BOOL⟩],
           some (.whileStatement (.booleanLiteral true) []), true⟩,
          ⟨[], none, true⟩]⟩ =
      .ok (.primitive .VOID,
        ⟨[⟨[⟨"x", .primitive .BOOL⟩],
           some (.whileStatement (.booleanLiteral true) []), true⟩,
          ⟨[], none, true⟩]⟩) ∧
    analyzeIfStatement 5 (.booleanLiteral true) [] (some [])
        ⟨[⟨[], none, true⟩]⟩ =
      .error .unreachableElseBlock := by
  constructor
  · have h := (c1_if_statement_rules 4 (.identifier "x") [.haltStatement]
      none
      ⟨[⟨[⟨"x", .primitive .BOOL⟩],
         some (.whileStatement (.booleanLiteral true) []), true⟩,
        ⟨[], none, true⟩]⟩
      ⟨[⟨[⟨"x", .primitive .BOOL⟩],
         some (.whileStatement (.booleanLiteral true) []), true⟩,
        ⟨[], none, true⟩]⟩
      rfl rfl).2.2 (by intro b h; cases h)
    exact (h false
      ⟨[⟨[⟨"x", .primitive .BOOL⟩],
         some (.whileStatement (.booleanLiteral true) []), true⟩,
        ⟨[], none, true⟩]⟩ true
      ⟨[⟨[⟨"x", .primitive .BOOL⟩],
         some (.whileStatement (.booleanLiteral true) []), true⟩,
        ⟨[], none, true⟩]⟩ (by rfl) (by rfl)).1
  · have h := (c1_if_statement_rules 4 (.booleanLiteral true) [] (some [])
      ⟨[⟨[], none, true⟩]⟩ ⟨[⟨[], none, true⟩]⟩ rfl rfl).1 rfl
    exact (h true ⟨[⟨[], none, true⟩]⟩ (by rfl)).1 rfl

/-! ## C4 — pipe desugaring -/

/-- Token stream of the spec's pipe example `[[1,2,3]] >> f(x) >> g`. -/
def pipeExampleTokens : List Token :=
  [mkToken .LBRACKET "[", mkToken .LBRACKET "[", mkToken .INT_LITERAL "1",
   mkToken .COMMA ",", mkToken .INT_LITERAL "2", mkToken .COMMA ",",
   mkToken .INT_LITERAL "3", mkToken .RBRACKET "]", mkToken .RBRACKET "]",
   mkToken .ARROW ">>", mkToken .IDENTIFIER "f", mkToken .LPAREN "(",
   mkToken .IDENTIFIER "x", mkToken .RPAREN ")", mkToken .ARROW ">>",
   mkToken .IDENTIFIER "g", eofToken]

/-- Token stream of the explicit call `g(f([1,2,3], x))`. -/
def pipeExampleCallTokens : List Token :=
  [mkToken .IDENTIFIER "g", mkToken .LPAREN "(", mkToken .IDENTIFIER "f",
   mkToken .LPAREN "(", mkToken .LBRACKET "[", mkToken .INT_LITERAL "1",
   mkToken .COMMA ",", mkToken .INT_LITERAL "2", mkToken .COMMA ",",
   mkToken .INT_LITERAL "3", mkToken .RBRACKET "]", mkToken .COMMA ",",
   mkToken .IDENTIFIER "x", mkToken .RPAREN ")", mkToken .RPAREN ")",
   eofToken]

/-- The AST both example sources must parse to. -/
def pipeExampleExpr : Expr :=
  .functionCallExpression (.identifier "g")
    [.functionCallExpression (.identifier "f")
      [.arrayLiteral [.numericLiteral 1, .numericLiteral 2, .numericLiteral 3],
       .identifier "x"]]

/-- Manual unfolding of one `parsePipeLoop` iteration (the automatic
equation generator does not handle this body shape). -/
theorem parsePipeLoop_succ (f : Nat) (call : Option Expr) (args : List Expr)
    (ts : List Token) :
    parsePipeLoop (f + 1) call args ts =
      match currentTok ts with
      | .error e => .error e
      | .ok t =>
          if t.tokenType = .EOF || !(t.tokenType = .ARROW) then
            match call with
            | none => .ok (.arrayLiteral args, ts)
            | some c => .ok (c, ts)
          else
            match consume .ARROW ts with
            | .error e => .error e
            | .ok (_, ts1) =>
                match consume .IDENTIFIER ts1 with
                | .error e => .error e
                | .ok (identTok, ts2) =>
                    let newArgs := match call with
                      | some c => [c]
                      | none => args
                    match currentTok ts2 with
                    | .error e => .error e
                    | .ok t2 =>
                        match
                          (if t2.tokenType = .LPAREN then
                             match consume .LPAREN ts2 with
                             | .error e => .error e
                             | .ok (_, ts3) =>
                                 match parseArguments f ts3 with
                                 | .error e => .error e
                                 | .ok (extra, ts4) =>
                                     match consume .RPAREN ts4 with
                                     | .error e => .error e
                                     | .ok (_, ts5) => Except.ok (extra, ts5)
                           else Except.ok (([] : List Expr), ts2))
                        with
                        | .error e => .error e
                        | .ok (extra, ts3) =>
                            parsePipeLoop f
                              (some (.functionCallExpression
                                (.identifier identTok.value) (newArgs ++ extra)))
                              args ts3 := rfl

/-- C4: the pipe grammar desugars to nested calls.  The `>>` loop obeys
exactly the claim's laws: with no further `>>` segment it yields the
accumulated call — or a plain `ArrayLiteral` of the bracketed elements
when no segment was consumed at all; a `>> g` segment without parentheses
builds a call whose arguments are the bracketed elements, spread in
order, for the first segment and exactly the previous stage's call for
every later one; a `>> f(...)` segment appends its parenthesized
arguments to that seed.  Consequently `[[1,2,3]] >> f(x) >> g` parses
structurally equal to `g(f([1,2,3], x))`. -/
theorem c4_pipe_desugaring (f : Nat) (call : Option Expr)
    (elements : List Expr) :
    (∀ ts, parsePipeExpression (f + 1) elements ts =
      parsePipeLoop f none elements ts) ∧
    (∀ t rest, t.tokenType ≠ .ARROW →
      parsePipeLoop (f + 1) call elements (t :: rest) =
        .ok ((match call with
              | none => Expr.arrayLiteral elements
              | some c => c),
             t :: rest)) ∧
    (∀ aTok gTok t rest, aTok.tokenType = .ARROW →
      gTok.tokenType = .IDENTIFIER → t.tokenType ≠ .LPAREN →
      parsePipeLoop (f + 1) call elements (aTok :: gTok :: t :: rest) =
        parsePipeLoop f
          (some (.functionCallExpression (.identifier gTok.value)
            (match call with
             | none => elements
             | some c => [c])))
          elements (t :: rest)) ∧
    (∀ aTok gTok lpTok rpTok ts1 extra ts2,
      aTok.tokenType = .ARROW → gTok.tokenType = .IDENTIFIER →
      lpTok.tokenType = .LPAREN → rpTok.tokenType = .RPAREN →
      parseArguments f ts1 = .ok (extra, rpTok :: ts2) →
      parsePipeLoop (f + 1) call elements (aTok :: gTok :: lpTok :: ts1) =
        parsePipeLoop f
          (some (.functionCallExpression (.identifier gTok.value)
            ((match call with
              | none => elements
              | some c => [c]) ++ extra)))
          elements ts2) ∧
    (parseExpression 60 pipeExampleTokens = .ok (pipeExampleExpr, [eofToken]) ∧
     parseExpression 60 pipeExampleCallTokens =
       .ok (pipeExampleExpr, [eofToken])) := by
  refine ⟨?_, ?_, ?_, ?_, rfl, rfl⟩
  · intro ts; rw [parsePipeExpression]
  · intro t rest hne
    rw [parsePipeLoop_succ]
    simp only [currentTok, hne, decide_False, Bool.not_false, Bool.or_true,
      if_true, eq_self_iff_true]
    cases call <;> rfl
  · intro aTok gTok t rest ha hg hlp
    rw [parsePipeLoop_succ]
    cases call <;> simp [currentTok, consume, ha, hg, hlp]
  · intro aTok gTok lpTok rpTok ts1 extra ts2 ha hg hlp hrp hargs
    rw [parsePipeLoop_succ]
    cases call <;> simp [currentTok, consume, ha, hg, hlp, hrp, hargs]

/-- Witness for C4: `>> g` applied to a one-element bracketed list, then
loop exit at end of input; and `>> f(x)` with a parsed argument list. -/
theorem c4_pipe_desugaring_witness :
    parsePipeLoop 11 none [.numericLiteral 1]
        [mkToken .ARROW ">>", mkToken .IDENTIFIER "g", eofToken] =
      .ok (.functionCallExpression (.identifier "g") [.numericLiteral 1],
           [eofToken]) ∧
    parsePipeLoop 11 (some (.identifier "p")) [.numericLiteral 1]
        [mkToken .ARROW ">>", mkToken .IDENTIFIER "f", mkToken .LPAREN "(",
         mkToken .IDENTIFIER "x", mkToken .RPAREN ")", eofToken] =
      .ok (.functionCallExpression (.identifier "f")
            [.identifier "p", .identifier "x"],
           [eofToken]) := by
  constructor
  · rw [(c4_pipe_desugaring 10 none [.numericLiteral 1]).2.2.1
      (mkToken .ARROW ">>") (mkToken .IDENTIFIER "g") eofToken [] rfl rfl
      (by intro h; cases h)]
    exact ((c4_pipe_desugaring 9
      (some (.functionCallExpression (.identifier "g") [.numericLiteral 1]))
      [.numericLiteral 1]).2.1 eofToken [] (by intro h; cases h))
  · rw [(c4_pipe_desugaring 10 (some (.identifier "p"))
      [.numericLiteral 1]).2.2.2.1
      (mkToken .ARROW ">>") (mkToken .IDENTIFIER "f") (mkToken .LPAREN "(")
      (mkToken .RPAREN ")") [mkToken .IDENTIFIER "x", mkToken .RPAREN ")",
        eofToken]
      [.identifier "x"] [eofToken] rfl rfl rfl rfl (by rfl)]
    exact ((c4_pipe_desugaring 9
      (some (.functionCallExpression (.identifier "f")
        [.identifier "p", .identifier "x"]))
      [.numericLiteral 1]).2.1 eofToken [] (by intro h; cases h))

/-! ## C6 — infer return types -/

/-- Modelled from the spec: the scan step of the pre-pass claim C6
describes — the body's statements are walked, and each (top-level)
return statement is type-checked via `get_return_type`, BEFORE the body
itself is analyzed.  In the source this loop exists only in
`analyze_function_literal` (the `FunctionLiteral` node's class file is
not part of the snapshot); the claim asserts it for every function whose
declared return type is `infer`. -/
def prepassScan : Nat → List Stmt → SymbolTable → Except AErr SymbolTable
  | 0, _, _ => .error .outOfFuel
  | _ + 1, [], st => .ok st
  | fuel + 1, s :: rest, st =>
      match s with
      | .returnStatement e =>
          match getReturnType fuel e st with
          | .error err => .error err
          | .ok (_, st1) => prepassScan fuel rest st1
      | _ => prepassScan fuel rest st

/-- Modelled from the spec: function-declaration analysis as claim C6
states it — identical to `analyzeFunctionDeclaration` except that the
pre-pass over the body's return statements runs before the body is
analyzed. -/
def prepassAnalyzeFunctionDeclaration : Nat → String → VarType →
    List (String × VarType) → List Stmt → SymbolTable → ARes VarType
  | 0, _, _, _, _, _ => .error .outOfFuel
  | fuel + 1, name, ret, ps, body, st =>
      if (st.lookup name true).isSome then .error (.cannotRedeclareFunction name)
      else
        match st.define name (.function ret ps) with
        | .error err => .error err
        | .ok st1 =>
            let st2 := st1.enterScope (some (.functionDeclaration name ret ps body))
            match defineParams ps st2 with
            | .error err => .error err
            | .ok st3 =>
                match prepassScan fuel body st3 with
                | .error err => .error err
                | .ok st3' =>
                    match analyzeBlockStatement fuel body false st3' with
                    | .error err => .error err
                    | .ok (_, st4) =>
                        let ft := match st4.scopes.head? with
                          | some sc =>
                              match sc.parentNode with
                              | some (.functionDeclaration _ r' ps' _) =>
                                  VarType.function r' ps'
                              | _ => VarType.function ret ps
                          | none => VarType.function ret ps
                        match st4.exitScope with
                        | .error err => .error err
                        | .ok st5 => .ok (ft, st5.updateSymbol name ft)

/-- C6 counterexample: for `func f -> infer = [] >> { int x = 1;
return x; }`, the analyzer succeeds and fixes the return type to `int` —
the first return is type-checked only when the in-order body analysis
reaches it, after `x` is declared — whereas the claim's pre-pass
mechanism type-checks `return x` before the body is analyzed and raises
the not-declared `NameError`. -/
theorem c6_prepass_counterexample :
    analyzeStmtD 20
        (.functionDeclaration "f" (.primitive .INFER) []
          [.variableDeclaration "x" (.primitive .INT) (.numericLiteral 1),
           .returnStatement (some (.identifier "x"))])
        initialSymbolTable =
      .ok (.function (.primitive .INT) [],
        ⟨[⟨[⟨"f", .function (.primitive .INT) []⟩], none, true⟩]⟩) ∧
    prepassAnalyzeFunctionDeclaration 20 "f" (.primitive .INFER) []
        [.variableDeclaration "x" (.primitive .INT) (.numericLiteral 1),
         .returnStatement (some (.identifier "x"))]
        initialSymbolTable =
      .error (.variableNotDeclared "x") := by
  exact ⟨rfl, rfl⟩

theorem getCurrentFunctionTypeScopes_fix (rt T : VarType)
    (ps : List (String × VarType)) (scopes : List Scope)
    (h : SymbolTable.getCurrentFunctionTypeScopes scopes = some (T, ps)) :
    SymbolTable.getCurrentFunctionTypeScopes
      (SymbolTable.fixCurrentFnReturnScopes rt scopes) = some (rt, ps) := by
  induction scopes with
  | nil => simp [SymbolTable.getCurrentFunctionTypeScopes] at h
  | cons sc rest ih =>
      rw [SymbolTable.getCurrentFunctionTypeScopes] at h
      rw [SymbolTable.fixCurrentFnReturnScopes]
      cases hp : sc.parentNode with
      | none =>
          rw [hp] at h
          rw [SymbolTable.getCurrentFunctionTypeScopes, hp]
          exact ih h
      | some s =>
          cases s with
          | functionDeclaration n r ps' b =>
              rw [hp] at h
              simp only [Option.some.injEq, Prod.mk.injEq] at h
              simp [SymbolTable.getCurrentFunctionTypeScopes, h.2]
          | _ =>
              rw [hp] at h
              rw [SymbolTable.getCurrentFunctionTypeScopes, hp]
              exact ih h

/-- C6 (amended): for a function declaration whose declared return type
is still `infer` when a return statement is analyzed, `get_return_type`
fixes the declared return type in place to that return's analyzed type
and succeeds — this happens at the first return encountered during the
single, in-order analysis of the body (no pre-pass exists for
declarations; see the counterexample); once the return type is a
concrete type `T`, a later return of an inequivalent type raises the
return-type-mismatch `TypeError` naming `T` — not `infer` — and a
return of an equivalent type succeeds without modifying the table. -/
theorem c6_infer_return_fixing (f : Nat) (st st1 : SymbolTable) (e : Expr)
    (rt T : VarType) (ps : List (String × VarType))
    (hcur0 : (st.getCurrentFunctionType).isSome = true)
    (he : analyzeExprD f e st = .ok (rt, st1)) :
    (st1.getCurrentFunctionType = some (.primitive .INFER, ps) →
      getReturnType (f + 1) (some e) st =
        .ok (rt, SymbolTable.fixCurrentFunctionReturnType rt st1) ∧
      (SymbolTable.fixCurrentFunctionReturnType rt st1).getCurrentFunctionType =
        some (rt, ps)) ∧
    (st1.getCurrentFunctionType = some (T, ps) → isInferCheck T = false →
      (varEq rt T = false →
        getReturnType (f + 1) (some e) st =
          .error (.returnTypeMismatch rt T)) ∧
      (varEq rt T = true →
        getReturnType (f + 1) (some e) st = .ok (rt, st1))) := by
  have hstep : ∀ r, getReturnType (f + 1) (some e) st = r ↔
      (match st1.getCurrentFunctionType with
       | none => Except.error AErr.returnOutsideFunction
       | some (fnRet, _) =>
           if isInferCheck fnRet then
             Except.ok (rt, SymbolTable.fixCurrentFunctionReturnType rt st1)
           else if !varEq rt fnRet then
             Except.error (AErr.returnTypeMismatch rt fnRet)
           else Except.ok (rt, st1)) = r := by
    intro r
    rw [getReturnType]
    rw [Option.isSome_iff_exists] at hcur0
    obtain ⟨p, hp⟩ := hcur0
    simp only [hp, Option.isNone_some, Bool.false_eq_true, if_false, he]
  constructor
  · intro hcur
    constructor
    · rw [hstep, hcur]
      simp [isInferCheck]
    · exact getCurrentFunctionTypeScopes_fix rt (.primitive .INFER) ps
        st1.scopes hcur
  · intro hcur hT
    constructor
    · intro hne
      rw [hstep, hcur]
      simp [hT, hne]
    · intro heq
      rw [hstep, hcur]
      simp [hT, heq]

/-- Witness for C6 (amended): inside a function scope declared `infer`, a
`return 1` fixes the return type to `int`; with the type already fixed to
`int`, a `return "s"` raises the mismatch naming `int`. -/
theorem c6_infer_return_fixing_witness :
    getReturnType 2 (some (.numericLiteral 1))
        ⟨[⟨[], some (.functionDeclaration "f" (.primitive .INFER) [] []), true⟩,
          ⟨[], none, true⟩]⟩ =
      .ok (.primitive .INT,
        ⟨[⟨[], some (.functionDeclaration "f" (.primitive .INT) [] []), true⟩,
          ⟨[], none, true⟩]⟩) ∧
    getReturnType 2 (some (.stringLiteral "s"))
        ⟨[⟨[], some (.functionDeclaration "f" (.primitive .INT) [] []), true⟩,
          ⟨[], none, true⟩]⟩ =
      .error (.returnTypeMismatch (.primitive .STR) (.primitive .INT)) := by
  constructor
  · exact ((c6_infer_return_fixing 1
      ⟨[⟨[], some (.functionDeclaration "f" (.primitive .INFER) [] []), true⟩,
        ⟨[], none, true⟩]⟩
      ⟨[⟨[], some (.functionDeclaration "f" (.primitive .INFER) [] []), true⟩,
        ⟨[], none, true⟩]⟩
      (.numericLiteral 1) (.primitive .INT) (.primitive .INT) []
      rfl rfl).1 rfl).1
  · exact ((c6_infer_return_fixing 1
      ⟨[⟨[], some (.functionDeclaration "f" (.primitive .INT) [] []), true⟩,
        ⟨[], none, true⟩]⟩
      ⟨[⟨[], some (.functionDeclaration "f" (.primitive .INT) [] []), true⟩,
        ⟨[], none, true⟩]⟩
      (.stringLiteral "s") (.primitive .STR) (.primitive .INT) []
      rfl rfl).2 rfl rfl).1 rfl

/-! ## C9 — frame preservation of reachability flags -/

/-- The reachability flags of a scope stack, innermost first. -/
def flagsOf (st : SymbolTable) : List Bool :=
  st.scopes.map Scope.reachable

/-- Analysis at one nesting depth never touches the reachability flags of
the enclosing scopes: stack height preserved and all flags below the
innermost scope unchanged. -/
def framePre (st st' : SymbolTable) : Prop :=
  st'.scopes.length = st.scopes.length ∧
  (flagsOf st').tail = (flagsOf st).tail

/-- Stronger frame: every flag (the innermost included) unchanged. -/
def fullPre (st st' : SymbolTable) : Prop :=
  flagsOf st' = flagsOf st

theorem flagsOf_length (st : SymbolTable) :
    (flagsOf st).length = st.scopes.length := by
  simp [flagsOf]

theorem fullPre_toFrame {st st' : SymbolTable} (h : fullPre st st') :
    framePre st st' := by
  refine ⟨?_, by rw [h]⟩
  rw [← flagsOf_length, ← flagsOf_length, h]

theorem fullPre_refl (st : SymbolTable) : fullPre st st := rfl

theorem fullPre_trans {a b c : SymbolTable} (h1 : fullPre a b)
    (h2 : fullPre b c) : fullPre a c := by
  unfold fullPre at *
  exact h2.trans h1

theorem framePre_refl (st : SymbolTable) : framePre st st := ⟨rfl, rfl⟩

theorem framePre_trans {a b c : SymbolTable} (h1 : framePre a b)
    (h2 : framePre b c) : framePre a c :=
  ⟨h2.1.trans h1.1, h2.2.trans h1.2⟩

theorem flagsOf_enterScope (p : Option Stmt) (st : SymbolTable) :
    flagsOf (st.enterScope p) = true :: flagsOf st := rfl

theorem define_flags (name : String) (t : VarType) (st st' : SymbolTable)
    (h : st.define name t = .ok st') : fullPre st st' := by
  match st with
  | ⟨[]⟩ => simp [SymbolTable.define] at h
  | ⟨sc :: rest⟩ =>
      simp only [SymbolTable.define] at h
      by_cases hb : SymbolTable.scopeBinds sc name = true
      · simp [hb] at h
      · simp only [hb, Bool.false_eq_true, if_false, Except.ok.injEq] at h
        subst h
        simp [fullPre, flagsOf]

theorem defineParams_flags : ∀ (ps : List (String × VarType))
    (st st' : SymbolTable), defineParams ps st = .ok st' →
    fullPre st st' := by
  intro ps
  induction ps with
  | nil =>
      intro st st' h
      rw [defineParams] at h
      cases h
      exact fullPre_refl _
  | cons p rest ih =>
      intro st st' h
      rw [defineParams] at h
      cases hd : st.define p.1 p.2 with
      | error e => rw [hd] at h; cases h
      | ok st1 =>
          rw [hd] at h
          exact fullPre_trans (define_flags _ _ _ _ hd) (ih st1 st' h)

theorem updateSymbol_flags (name : String) (t : VarType)
    (st : SymbolTable) : fullPre st (st.updateSymbol name t) := by
  match st with
  | ⟨[]⟩ => rfl
  | ⟨sc :: rest⟩ => simp [fullPre, SymbolTable.updateSymbol, flagsOf]

theorem fixCurrentFnReturnScopes_flags (rt : VarType)
    (scopes : List Scope) :
    (SymbolTable.fixCurrentFnReturnScopes rt scopes).map Scope.reachable =
      scopes.map Scope.reachable := by
  induction scopes with
  | nil => rfl
  | cons sc rest ih =>
      rw [SymbolTable.fixCurrentFnReturnScopes]
      cases hp : sc.parentNode with
      | none => simp [ih]
      | some s => cases s <;> simp [ih]

theorem fix_flags (rt : VarType) (st : SymbolTable) :
    fullPre st (SymbolTable.fixCurrentFunctionReturnType rt st) := by
  show flagsOf _ = flagsOf st
  simp [flagsOf, SymbolTable.fixCurrentFunctionReturnType,
    fixCurrentFnReturnScopes_flags]

theorem setUnreachable_frame (st : SymbolTable) :
    framePre st st.setUnreachable := by
  match st with
  | ⟨[]⟩ => exact framePre_refl _
  | ⟨sc :: rest⟩ =>
      exact ⟨by simp [SymbolTable.setUnreachable],
        by simp [flagsOf, SymbolTable.setUnreachable]⟩

theorem resolveNodeType_state (t : VarType) (st : SymbolTable)
    (t' : VarType) (st' : SymbolTable)
    (h : resolveNodeType t st = .ok (t', st')) : st' = st := by
  cases t
  case customTypeIdentifier n =>
      simp only [resolveNodeType] at h
      cases hl : st.lookup n false with
      | none => rw [hl] at h; cases h
      | some s => rw [hl] at h; cases h; rfl
  all_goals simp only [resolveNodeType] at h
  all_goals (cases h; rfl)

theorem analyzeIdentifier_state (name : String) (st : SymbolTable)
    (t : VarType) (st' : SymbolTable)
    (h : analyzeIdentifier name st = .ok (t, st')) : st' = st := by
  rw [analyzeIdentifier] at h
  cases hl : st.lookup name true with
  | none => rw [hl] at h; cases h
  | some s => rw [hl] at h; cases h; rfl

theorem analyzeHalt_frame (st : SymbolTable) (t : VarType)
    (st' : SymbolTable) (h : analyzeHaltStatement st = .ok (t, st')) :
    framePre st st' := by
  rw [analyzeHaltStatement] at h
  by_cases hl : st.isLoopScope
  · rw [hl] at h
    simp only [Bool.not_true, Bool.false_eq_true, if_false] at h
    cases h
    exact setUnreachable_frame st
  · rw [Bool.eq_false_iff.mpr hl] at h
    simp at h

theorem analyzeSkip_frame (st : SymbolTable) (t : VarType)
    (st' : SymbolTable) (h : analyzeSkipStatement st = .ok (t, st')) :
    framePre st st' := by
  rw [analyzeSkipStatement] at h
  by_cases hl : st.isLoopScope
  · rw [hl] at h
    simp only [Bool.not_true, Bool.false_eq_true, if_false] at h
    cases h
    exact setUnreachable_frame st
  · rw [Bool.eq_false_iff.mpr hl] at h
    simp at h

/-- The scope discipline of a branch/loop/function body: enter a scope,
analyze at the deeper level with only the tail flags preserved, pop the
scope — all original flags survive. -/
theorem enter_exit_full (p : Option Stmt) (st st2 st3 : SymbolTable)
    (hframe : framePre (st.enterScope p) st2)
    (hexit : st2.exitScope = .ok st3) : fullPre st st3 := by
  match st2, hexit with
  | ⟨a :: b :: rest⟩, hexit =>
      simp only [SymbolTable.exitScope, Except.ok.injEq] at hexit
      subst hexit
      have h2 := hframe.2
      have he : flagsOf (st.enterScope p) = true :: flagsOf st :=
        flagsOf_enterScope p st
      rw [he] at h2
      simpa [fullPre, flagsOf] using h2
  | ⟨[_]⟩, hexit => simp [SymbolTable.exitScope] at hexit
  | ⟨[]⟩, hexit => simp [SymbolTable.exitScope] at hexit

/-- Reachability is a function of the flag list alone. -/
theorem isReachable_eq_flags (st : SymbolTable) :
    st.isReachable = (flagsOf st).all id := by
  show st.scopes.all (fun sc => sc.reachable) =
    (st.scopes.map Scope.reachable).all id
  induction st.scopes with
  | nil => rfl
  | cons sc rest ihr =>
      simp only [List.all_cons, List.map_cons]
      rw [ihr]
      rfl

/-- A `fullPre` step preserves the table-level reachability answer. -/
theorem fullPre_isReachable {st st' : SymbolTable} (h : fullPre st st') :
    st'.isReachable = st.isReachable := by
  rw [isReachable_eq_flags, isReachable_eq_flags, h]

/-- A state-identity result transports to `framePre`. -/
theorem stateEqFrame {st st' : SymbolTable} (h : st' = st) :
    framePre st st' := by
  subst h
  exact framePre_refl _

/-- The induction package at one fuel level: every expression analyzer
returns the symbol table unchanged (the fragment has no function literal,
so no expression opens a scope or touches a flag); every statement
analyzer preserves the stack height and the flags of all enclosing scopes
(`framePre`); the branch-body helpers and the return-type computation
preserve every flag (`fullPre`). -/
structure FrameInv (f : Nat) : Prop where
  exprD : ∀ e st t st', analyzeExprD f e st = Except.ok (t, st') → st' = st
  bin : ∀ l op r st t st',
    analyzeBinaryExpression f l op r st = Except.ok (t, st') → st' = st
  un : ∀ op e st t st',
    analyzeUnaryExpression f op e st = Except.ok (t, st') → st' = st
  asn : ∀ l r st t st',
    analyzeAssignmentExpression f l r st = Except.ok (t, st') → st' = st
  call : ∀ c as_ st t st',
    analyzeFunctionCallExpression f c as_ st = Except.ok (t, st') → st' = st
  args : ∀ as_ ps st st', checkCallArgs f as_ ps st = Except.ok st' → st' = st
  idx : ∀ a i st t st',
    analyzeIndexExpression f a i st = Except.ok (t, st') → st' = st
  mem : ∀ o m st t st',
    analyzeMemberAccessExpression f o m st = Except.ok (t, st') → st' = st
  meth : ∀ o m as_ st t st',
    analyzeMethodCallExpression f o m as_ st = Except.ok (t, st') → st' = st
  arr : ∀ es st t st', analyzeArrayLiteral f es st = Except.ok (t, st') → st' = st
  setL : ∀ es st t st', analyzeSetLiteral f es st = Except.ok (t, st') → st' = st
  elems : ∀ es T er st st',
    checkElementTypes f es T er st = Except.ok st' → st' = st
  mapL : ∀ ps st t st', analyzeMapLiteral f ps st = Except.ok (t, st') → st' = st
  pairs : ∀ ps kt vt st st',
    checkMapPairs f ps kt vt st = Except.ok st' → st' = st
  ent : ∀ tn attrs st t st',
    analyzeEntityLiteral f tn attrs st = Except.ok (t, st') → st' = st
  attrsL : ∀ attrs ta tn st st',
    checkEntityAttributes f attrs ta tn st = Except.ok st' → st' = st
  stmtD : ∀ s st t st', analyzeStmtD f s st = Except.ok (t, st') → framePre st st'
  varDecl : ∀ n ty i st t st',
    analyzeVariableDeclaration f n ty i st = Except.ok (t, st') → framePre st st'
  funDecl : ∀ n r ps b st t st',
    analyzeFunctionDeclaration f n r ps b st = Except.ok (t, st') →
      framePre st st'
  block : ∀ ss ns st t st',
    analyzeBlockStatement f ss ns st = Except.ok (t, st') → framePre st st'
  seq : ∀ ss st st', analyzeStmtSeq f ss st = Except.ok st' → framePre st st'
  ifS : ∀ c thn els st t st',
    analyzeIfStatement f c thn els st = Except.ok (t, st') → framePre st st'
  thenB : ∀ c thn els st b st',
    analyzeThenBlock f c thn els st = Except.ok (b, st') → fullPre st st'
  elseB : ∀ c thn els st b st',
    analyzeElseBlock f c thn els st = Except.ok (b, st') → fullPre st st'
  whileS : ∀ c b st t st',
    analyzeWhileStatement f c b st = Except.ok (t, st') → framePre st st'
  rangeS : ∀ i s e inc b st t st',
    analyzeRangeStatement f i s e inc b st = Except.ok (t, st') → framePre st st'
  eachS : ∀ v it b st t st',
    analyzeEachStatement f v it b st = Except.ok (t, st') → framePre st st'
  echo : ∀ e st t st',
    analyzeEchoStatement f e st = Except.ok (t, st') → framePre st st'
  grt : ∀ e? st t st',
    getReturnType f e? st = Except.ok (t, st') → fullPre st st'
  ret : ∀ e? st t st',
    analyzeReturnStatement f e? st = Except.ok (t, st') → framePre st st'

theorem frameInv_zero : FrameInv 0 := by
  constructor <;> intros <;> rename_i h <;>
    simp [analyzeExprD, analyzeBinaryExpression, analyzeUnaryExpression,
      analyzeAssignmentExpression, analyzeFunctionCallExpression,
      checkCallArgs, analyzeIndexExpression, analyzeMemberAccessExpression,
      analyzeMethodCallExpression, analyzeArrayLiteral, analyzeSetLiteral,
      checkElementTypes, analyzeMapLiteral, checkMapPairs,
      analyzeEntityLiteral, checkEntityAttributes, analyzeStmtD,
      analyzeVariableDeclaration, analyzeFunctionDeclaration,
      analyzeBlockStatement, analyzeStmtSeq, analyzeIfStatement,
      analyzeThenBlock, analyzeElseBlock, analyzeWhileStatement,
      analyzeRangeStatement, analyzeEachStatement, analyzeEchoStatement,
      getReturnType, analyzeReturnStatement] at h

theorem presExprD (f : Nat) (ih : FrameInv f) :
    ∀ e st t st', analyzeExprD (f + 1) e st = Except.ok (t, st') → st' = st := by
  intro e st t st' h
  cases e
  case numericLiteral v =>
    simp only [analyzeExprD] at h
    split at h
    · cases h
    · exact resolveNodeType_state _ _ _ _ h
  case floatLiteral v =>
    simp only [analyzeExprD] at h
    split at h
    · cases h
    · exact resolveNodeType_state _ _ _ _ h
  case stringLiteral v =>
    simp only [analyzeExprD] at h
    split at h
    · cases h
    · exact resolveNodeType_state _ _ _ _ h
  case booleanLiteral v =>
    simp only [analyzeExprD] at h
    split at h
    · cases h
    · exact resolveNodeType_state _ _ _ _ h
  case nullLiteral =>
    simp only [analyzeExprD] at h
    split at h
    · cases h
    · exact resolveNodeType_state _ _ _ _ h
  case identifier n =>
    simp only [analyzeExprD] at h
    split at h
    · cases h
    · split at h
      next heq => cases h
      next t1 st1 heq =>
        exact (resolveNodeType_state _ _ _ _ h).trans
          (analyzeIdentifier_state _ _ _ _ heq)
  case arrayLiteral es =>
    simp only [analyzeExprD] at h
    split at h
    · cases h
    · split at h
      next heq => cases h
      next t1 st1 heq =>
        exact (resolveNodeType_state _ _ _ _ h).trans (ih.arr _ _ _ _ heq)
  case setLiteral es =>
    simp only [analyzeExprD] at h
    split at h
    · cases h
    · split at h
      next heq => cases h
      next t1 st1 heq =>
        exact (resolveNodeType_state _ _ _ _ h).trans (ih.setL _ _ _ _ heq)
  case mapLiteral ps =>
    simp only [analyzeExprD] at h
    split at h
    · cases h
    · split at h
      next heq => cases h
      next t1 st1 heq =>
        exact (resolveNodeType_state _ _ _ _ h).trans (ih.mapL _ _ _ _ heq)
  case entityLiteral tn attrs =>
    simp only [analyzeExprD] at h
    split at h
    · cases h
    · split at h
      next heq => cases h
      next t1 st1 heq =>
        exact (resolveNodeType_state _ _ _ _ h).trans (ih.ent _ _ _ _ _ heq)
  case unaryExpression op operand pos =>
    simp only [analyzeExprD] at h
    split at h
    · cases h
    · split at h
      next heq => cases h
      next t1 st1 heq =>
        exact (resolveNodeType_state _ _ _ _ h).trans (ih.un _ _ _ _ _ heq)
  case binaryExpression l op r =>
    simp only [analyzeExprD] at h
    split at h
    · cases h
    · split at h
      next heq => cases h
      next t1 st1 heq =>
        exact (resolveNodeType_state _ _ _ _ h).trans (ih.bin _ _ _ _ _ _ heq)
  case assignmentExpression l r =>
    simp only [analyzeExprD] at h
    split at h
    · cases h
    · split at h
      next heq => cases h
      next t1 st1 heq =>
        exact (resolveNodeType_state _ _ _ _ h).trans (ih.asn _ _ _ _ _ heq)
  case indexExpression a i =>
    simp only [analyzeExprD] at h
    split at h
    · cases h
    · split at h
      next heq => cases h
      next t1 st1 heq =>
        exact (resolveNodeType_state _ _ _ _ h).trans (ih.idx _ _ _ _ _ heq)
  case functionCallExpression c as_ =>
    simp only [analyzeExprD] at h
    split at h
    · cases h
    · split at h
      next heq => cases h
      next t1 st1 heq =>
        exact (resolveNodeType_state _ _ _ _ h).trans (ih.call _ _ _ _ _ heq)
  case memberAccessExpression o m =>
    simp only [analyzeExprD] at h
    split at h
    · cases h
    · split at h
      next heq => cases h
      next t1 st1 heq =>
        exact (resolveNodeType_state _ _ _ _ h).trans (ih.mem _ _ _ _ _ heq)
  case methodCallExpression o m as_ =>
    simp only [analyzeExprD] at h
    split at h
    · cases h
    · split at h
      next heq => cases h
      next t1 st1 heq =>
        exact (resolveNodeType_state _ _ _ _ h).trans (ih.meth _ _ _ _ _ _ heq)

theorem presBin (f : Nat) (ih : FrameInv f) :
    ∀ l op r st t st',
      analyzeBinaryExpression (f + 1) l op r st = Except.ok (t, st') →
      st' = st := by
  intro l op r st t st' h
  simp only [analyzeBinaryExpression] at h
  split at h
  next heq => cases h
  next lt st1 heq1 =>
    split at h
    next heq => cases h
    next rt st2 heq2 =>
      have h2 : st2 = st := (ih.exprD _ _ _ _ heq2).trans (ih.exprD _ _ _ _ heq1)
      subst st2
      repeat' split at h
      all_goals cases h
      all_goals rfl

theorem presUn (f : Nat) (ih : FrameInv f) :
    ∀ op e st t st',
      analyzeUnaryExpression (f + 1) op e st = Except.ok (t, st') →
      st' = st := by
  intro op e st t st' h
  simp only [analyzeUnaryExpression] at h
  split at h
  next heq => cases h
  next ot st1 heq =>
    have h1 : st1 = st := ih.exprD _ _ _ _ heq
    subst st1
    repeat' split at h
    all_goals cases h
    all_goals rfl

theorem presAsn (f : Nat) (ih : FrameInv f) :
    ∀ l r st t st',
      analyzeAssignmentExpression (f + 1) l r st = Except.ok (t, st') →
      st' = st := by
  intro l r st t st' h
  cases l
  case identifier n =>
    simp only [analyzeAssignmentExpression, Bool.not_true,
      Bool.false_eq_true, if_false] at h
    split at h
    next heq => cases h
    next lt st1 heq1 =>
      split at h
      next heq => cases h
      next rt st2 heq2 =>
        have h2 : st2 = st :=
          (ih.exprD _ _ _ _ heq2).trans (ih.exprD _ _ _ _ heq1)
        subst st2
        split at h
        · cases h
        · simp only [Except.ok.injEq, Prod.mk.injEq] at h
          exact h.2.symm
  case indexExpression a i =>
    simp only [analyzeAssignmentExpression, Bool.not_true,
      Bool.false_eq_true, if_false] at h
    split at h
    next heq => cases h
    next lt st1 heq1 =>
      split at h
      next heq => cases h
      next rt st2 heq2 =>
        have h2 : st2 = st :=
          (ih.exprD _ _ _ _ heq2).trans (ih.exprD _ _ _ _ heq1)
        subst st2
        split at h
        · cases h
        · simp only [Except.ok.injEq, Prod.mk.injEq] at h
          exact h.2.symm
  case memberAccessExpression o m =>
    simp only [analyzeAssignmentExpression, Bool.not_true,
      Bool.false_eq_true, if_false] at h
    split at h
    next heq => cases h
    next lt st1 heq1 =>
      split at h
      next heq => cases h
      next rt st2 heq2 =>
        have h2 : st2 = st :=
          (ih.exprD _ _ _ _ heq2).trans (ih.exprD _ _ _ _ heq1)
        subst st2
        split at h
        · cases h
        · simp only [Except.ok.injEq, Prod.mk.injEq] at h
          exact h.2.symm
  all_goals (simp only [analyzeAssignmentExpression] at h; try cases h)

theorem presCall (f : Nat) (ih : FrameInv f) :
    ∀ c as_ st t st',
      analyzeFunctionCallExpression (f + 1) c as_ st = Except.ok (t, st') →
      st' = st := by
  intro c as_ st t st' h
  cases c
  case identifier n =>
    simp only [analyzeFunctionCallExpression] at h
    split at h
    next heqI => cases h
    next ret ps st1 heqI =>
      have h1 : st1 = st := by
        split at heqI
        · cases heqI
        · split at heqI
          · (cases heqI; rfl)
          · cases heqI
      subst st1
      split at h
      · cases h
      · split at h
        next heq3 => cases h
        next st2 hcca =>
          simp only [Except.ok.injEq, Prod.mk.injEq] at h
          exact h.2.symm.trans (ih.args _ _ _ _ hcca)
  all_goals (
    simp only [analyzeFunctionCallExpression] at h
    split at h
    next heqI => cases h
    next ret ps st1 heqI =>
      (have h1 : st1 = st := by
        split at heqI
        next heq2 => cases heqI
        next t1 stx heq2 =>
          split at heqI
          · (cases heqI; exact ih.exprD _ _ _ _ heq2)
          · cases heqI
       subst st1
       split at h
       · cases h
       · split at h
         next heq3 => cases h
         next st2 hcca =>
           simp only [Except.ok.injEq, Prod.mk.injEq] at h
           exact h.2.symm.trans (ih.args _ _ _ _ hcca)))

theorem presArgs (f : Nat) (ih : FrameInv f) :
    ∀ as_ ps st st', checkCallArgs (f + 1) as_ ps st = Except.ok st' →
      st' = st := by
  intro as_ ps st st' h
  cases as_ with
  | nil =>
      simp only [checkCallArgs, Except.ok.injEq] at h
      exact h.symm
  | cons a as2 =>
      cases ps with
      | nil =>
          simp only [checkCallArgs, Except.ok.injEq] at h
          exact h.symm
      | cons p pts =>
          obtain ⟨pn, pt⟩ := p
          simp only [checkCallArgs] at h
          split at h
          next heq => cases h
          next at1 st1 heq =>
            split at h
            · cases h
            · exact (ih.args _ _ _ _ h).trans (ih.exprD _ _ _ _ heq)

theorem presIdx (f : Nat) (ih : FrameInv f) :
    ∀ a i st t st',
      analyzeIndexExpression (f + 1) a i st = Except.ok (t, st') →
      st' = st := by
  intro a i st t st' h
  simp only [analyzeIndexExpression] at h
  split at h
  next heq => cases h
  next it st1 heq1 =>
    split at h
    · cases h
    · split at h
      next heq => cases h
      next arrT st2 heq2 =>
        split at h
        · simp only [Except.ok.injEq, Prod.mk.injEq] at h
          exact (h.2.symm.trans (ih.exprD _ _ _ _ heq2)).trans
            (ih.exprD _ _ _ _ heq1)
        · cases h

theorem presMem (f : Nat) (ih : FrameInv f) :
    ∀ o m st t st',
      analyzeMemberAccessExpression (f + 1) o m st = Except.ok (t, st') →
      st' = st := by
  intro o m st t st' h
  simp only [analyzeMemberAccessExpression] at h
  split at h
  next heq => cases h
  next objT st1 heq1 =>
    have h1 : st1 = st := ih.exprD _ _ _ _ heq1
    subst st1
    cases objT <;> simp at h
    all_goals (
      split at h
      · cases h
      · (simp only [Except.ok.injEq, Prod.mk.injEq] at h
         exact h.2.symm))

theorem presMeth (f : Nat) (ih : FrameInv f) :
    ∀ o m as_ st t st',
      analyzeMethodCallExpression (f + 1) o m as_ st = Except.ok (t, st') →
      st' = st := by
  intro o m as_ st t st' h
  simp only [analyzeMethodCallExpression] at h
  split at h
  next heq => cases h
  next objT st1 heq1 =>
    have h1 : st1 = st := ih.exprD _ _ _ _ heq1
    subst st1
    cases objT <;> simp at h
    all_goals (
      repeat' split at h
      all_goals cases h
      all_goals (rename_i hcca
                 exact ih.args _ _ _ _ hcca))

theorem presArr (f : Nat) (ih : FrameInv f) :
    ∀ es st t st', analyzeArrayLiteral (f + 1) es st = Except.ok (t, st') →
      st' = st := by
  intro es st t st' h
  cases es with
  | nil =>
      simp only [analyzeArrayLiteral, Except.ok.injEq, Prod.mk.injEq] at h
      exact h.2.symm
  | cons e0 rest =>
      simp only [analyzeArrayLiteral] at h
      split at h
      next heq => cases h
      next et st1 heq =>
        split at h
        next heq2 => cases h
        next st2 heq2 =>
          simp only [Except.ok.injEq, Prod.mk.injEq] at h
          exact (h.2.symm.trans (ih.elems _ _ _ _ _ heq2)).trans
            (ih.exprD _ _ _ _ heq)

theorem presSetL (f : Nat) (ih : FrameInv f) :
    ∀ es st t st', analyzeSetLiteral (f + 1) es st = Except.ok (t, st') →
      st' = st := by
  intro es st t st' h
  cases es with
  | nil =>
      simp only [analyzeSetLiteral, Except.ok.injEq, Prod.mk.injEq] at h
      exact h.2.symm
  | cons e0 rest =>
      simp only [analyzeSetLiteral] at h
      split at h
      next heq => cases h
      next et st1 heq =>
        split at h
        next heq2 => cases h
        next st2 heq2 =>
          simp only [Except.ok.injEq, Prod.mk.injEq] at h
          exact (h.2.symm.trans (ih.elems _ _ _ _ _ heq2)).trans
            (ih.exprD _ _ _ _ heq)

theorem presElems (f : Nat) (ih : FrameInv f) :
    ∀ es T er st st', checkElementTypes (f + 1) es T er st = Except.ok st' →
      st' = st := by
  intro es T er st st' h
  cases es with
  | nil =>
      simp only [checkElementTypes, Except.ok.injEq] at h
      exact h.symm
  | cons e rest =>
      simp only [checkElementTypes] at h
      split at h
      next heq => cases h
      next t1 st1 heq =>
        split at h
        · cases h
        · exact (ih.elems _ _ _ _ _ h).trans (ih.exprD _ _ _ _ heq)

theorem presMapL (f : Nat) (ih : FrameInv f) :
    ∀ ps st t st', analyzeMapLiteral (f + 1) ps st = Except.ok (t, st') →
      st' = st := by
  intro ps st t st' h
  cases ps with
  | nil =>
      simp only [analyzeMapLiteral, Except.ok.injEq, Prod.mk.injEq] at h
      exact h.2.symm
  | cons p rest =>
      obtain ⟨k0, v0⟩ := p
      simp only [analyzeMapLiteral] at h
      split at h
      next heq => cases h
      next kt st1 heq1 =>
        split at h
        next heq => cases h
        next vt st2 heq2 =>
          split at h
          next heq => cases h
          next st3 heq3 =>
            simp only [Except.ok.injEq, Prod.mk.injEq] at h
            exact ((h.2.symm.trans (ih.pairs _ _ _ _ _ heq3)).trans
              (ih.exprD _ _ _ _ heq2)).trans (ih.exprD _ _ _ _ heq1)

theorem presPairs (f : Nat) (ih : FrameInv f) :
    ∀ ps kt vt st st', checkMapPairs (f + 1) ps kt vt st = Except.ok st' →
      st' = st := by
  intro ps kt vt st st' h
  cases ps with
  | nil =>
      simp only [checkMapPairs, Except.ok.injEq] at h
      exact h.symm
  | cons p rest =>
      obtain ⟨k, v⟩ := p
      simp only [checkMapPairs] at h
      split at h
      next heq => cases h
      next kt1 st1 heq1 =>
        split at h
        · cases h
        · split at h
          next heq => cases h
          next vt1 st2 heq2 =>
            split at h
            · cases h
            · exact ((ih.pairs _ _ _ _ _ h).trans
                (ih.exprD _ _ _ _ heq2)).trans (ih.exprD _ _ _ _ heq1)

theorem presEnt (f : Nat) (ih : FrameInv f) :
    ∀ tn attrs st t st',
      analyzeEntityLiteral (f + 1) tn attrs st = Except.ok (t, st') →
      st' = st := by
  intro tn attrs st t st' h
  simp only [analyzeEntityLiteral] at h
  split at h
  next heq => cases h
  next s heq =>
    split at h
    next id ta tm heqv =>
      split at h
      next heq2 => cases h
      next st1 heq2 =>
        simp only [Except.ok.injEq, Prod.mk.injEq] at h
        exact h.2.symm.trans (ih.attrsL _ _ _ _ _ heq2)
    next heqv => cases h

theorem presAttrs (f : Nat) (ih : FrameInv f) :
    ∀ attrs ta tn st st',
      checkEntityAttributes (f + 1) attrs ta tn st = Except.ok st' →
      st' = st := by
  intro attrs ta tn st st' h
  cases attrs with
  | nil =>
      simp only [checkEntityAttributes, Except.ok.injEq] at h
      exact h.symm
  | cons p rest =>
      obtain ⟨key, value⟩ := p
      simp only [checkEntityAttributes] at h
      split at h
      · cases h
      · split at h
        next heq => cases h
        next emt st1 heq =>
          split at h
          · cases h
          · exact (ih.attrsL _ _ _ _ _ h).trans (ih.exprD _ _ _ _ heq)

theorem presStmtD (f : Nat) (ih : FrameInv f) :
    ∀ s st t st', analyzeStmtD (f + 1) s st = Except.ok (t, st') →
      framePre st st' := by
  intro s st t st' h
  cases s
  case variableDeclaration n ty i =>
    simp only [analyzeStmtD] at h
    split at h
    · cases h
    · split at h
      next heq => cases h
      next t1 st1 hc =>
        have hx := resolveNodeType_state _ _ _ _ h
        subst hx
        exact ih.varDecl _ _ _ _ _ _ hc
  case expressionStatement e =>
    simp only [analyzeStmtD] at h
    split at h
    · cases h
    · split at h
      next heq => cases h
      next t2 st2 heqI =>
        have hx := resolveNodeType_state _ _ _ _ h
        subst hx
        refine stateEqFrame ?_
        split at heqI
        next heq2 => cases heqI
        next tE stE heqE =>
          simp only [Except.ok.injEq, Prod.mk.injEq] at heqI
          rw [← heqI.2]
          exact ih.exprD _ _ _ _ heqE
  case blockStatement ss =>
    simp only [analyzeStmtD] at h
    split at h
    · cases h
    · split at h
      next heq => cases h
      next t1 st1 hc =>
        have hx := resolveNodeType_state _ _ _ _ h
        subst hx
        exact ih.block _ _ _ _ _ hc
  case ifStatement c thn els =>
    simp only [analyzeStmtD] at h
    split at h
    · cases h
    · split at h
      next heq => cases h
      next t1 st1 hc =>
        have hx := resolveNodeType_state _ _ _ _ h
        subst hx
        exact ih.ifS _ _ _ _ _ _ hc
  case whileStatement c b =>
    simp only [analyzeStmtD] at h
    split at h
    · cases h
    · split at h
      next heq => cases h
      next t1 st1 hc =>
        have hx := resolveNodeType_state _ _ _ _ h
        subst hx
        exact ih.whileS _ _ _ _ _ hc
  case rangeStatement i s e inc b =>
    simp only [analyzeStmtD] at h
    split at h
    · cases h
    · split at h
      next heq => cases h
      next t1 st1 hc =>
        have hx := resolveNodeType_state _ _ _ _ h
        subst hx
        exact ih.rangeS _ _ _ _ _ _ _ _ hc
  case eachStatement v it b =>
    simp only [analyzeStmtD] at h
    split at h
    · cases h
    · split at h
      next heq => cases h
      next t1 st1 hc =>
        have hx := resolveNodeType_state _ _ _ _ h
        subst hx
        exact ih.eachS _ _ _ _ _ _ hc
  case haltStatement =>
    simp only [analyzeStmtD] at h
    split at h
    · cases h
    · split at h
      next heq => cases h
      next t1 st1 hc =>
        have hx := resolveNodeType_state _ _ _ _ h
        subst hx
        exact analyzeHalt_frame _ _ _ hc
  case skipStatement =>
    simp only [analyzeStmtD] at h
    split at h
    · cases h
    · split at h
      next heq => cases h
      next t1 st1 hc =>
        have hx := resolveNodeType_state _ _ _ _ h
        subst hx
        exact analyzeSkip_frame _ _ _ hc
  case functionDeclaration n r ps b =>
    simp only [analyzeStmtD] at h
    split at h
    · cases h
    · split at h
      next heq => cases h
      next t1 st1 hc =>
        have hx := resolveNodeType_state _ _ _ _ h
        subst hx
        exact ih.funDecl _ _ _ _ _ _ _ hc
  case returnStatement e? =>
    simp only [analyzeStmtD] at h
    split at h
    · cases h
    · split at h
      next heq => cases h
      next t1 st1 hc =>
        have hx := resolveNodeType_state _ _ _ _ h
        subst hx
        exact ih.ret _ _ _ _ hc
  case echoStatement e =>
    simp only [analyzeStmtD] at h
    split at h
    · cases h
    · split at h
      next heq => cases h
      next t1 st1 hc =>
        have hx := resolveNodeType_state _ _ _ _ h
        subst hx
        exact ih.echo _ _ _ _ hc

theorem presVarDecl (f : Nat) (ih : FrameInv f) :
    ∀ n ty i st t st',
      analyzeVariableDeclaration (f + 1) n ty i st = Except.ok (t, st') →
      framePre st st' := by
  intro n ty i st t st' h
  simp only [analyzeVariableDeclaration] at h
  split at h
  next heq => cases h
  next initType st1 heq1 =>
    have h1 : st1 = st := ih.exprD _ _ _ _ heq1
    subst st1
    split at h
    · split at h <;> cases h
    · split at h
      next heq2 => cases h
      next ty2 heq2 =>
        split at h
        · cases h
        · split at h
          next heq3 => cases h
          next u heq3 =>
            split at h
            next heq4 => cases h
            next st2 hdef =>
              simp only [Except.ok.injEq, Prod.mk.injEq] at h
              rw [← h.2]
              exact fullPre_toFrame (define_flags _ _ _ _ hdef)

theorem presFunDecl (f : Nat) (ih : FrameInv f) :
    ∀ n r ps b st t st',
      analyzeFunctionDeclaration (f + 1) n r ps b st = Except.ok (t, st') →
      framePre st st' := by
  intro n r ps b st t st' h
  simp only [analyzeFunctionDeclaration] at h
  split at h
  · cases h
  · split at h
    next heq => cases h
    next st1 hdef =>
      split at h
      next heq => cases h
      next st3 hdp =>
        split at h
        next heq => cases h
        next t4 st4 hblk =>
          cases hex : st4.exitScope with
          | error e1 => rw [hex] at h; cases h
          | ok st5 =>
              rw [hex] at h
              simp only [Except.ok.injEq, Prod.mk.injEq] at h
              refine fullPre_toFrame ?_
              have hfull : fullPre st st5 := by
                have h01 : fullPre st st1 := define_flags _ _ _ _ hdef
                have h23 := defineParams_flags _ _ _ hdp
                have h34 : framePre _ st4 := ih.block _ _ _ _ _ hblk
                have h15 : fullPre st1 st5 :=
                  enter_exit_full _ st1 st4 st5
                    (framePre_trans (fullPre_toFrame h23) h34) hex
                exact fullPre_trans h01 h15
              rw [← h.2]
              exact fullPre_trans hfull (updateSymbol_flags _ _ _)

theorem presBlock (f : Nat) (ih : FrameInv f) :
    ∀ ss ns st t st',
      analyzeBlockStatement (f + 1) ss ns st = Except.ok (t, st') →
      framePre st st' := by
  intro ss ns st t st' h
  simp only [analyzeBlockStatement] at h
  cases ns with
  | true =>
      simp only [if_true] at h
      split at h
      next heq => cases h
      next st1 hseq =>
        cases hex : st1.exitScope with
        | error e1 => rw [hex] at h; cases h
        | ok st2 =>
            rw [hex] at h
            simp only [Except.ok.injEq, Prod.mk.injEq] at h
            rw [← h.2]
            exact fullPre_toFrame
              (enter_exit_full none st st1 st2 (ih.seq _ _ _ hseq) hex)
  | false =>
      simp only [Bool.false_eq_true, if_false] at h
      split at h
      next heq => cases h
      next st1 hseq =>
        simp only [Except.ok.injEq, Prod.mk.injEq] at h
        rw [← h.2]
        exact ih.seq _ _ _ hseq

theorem presSeq (f : Nat) (ih : FrameInv f) :
    ∀ ss st st', analyzeStmtSeq (f + 1) ss st = Except.ok st' →
      framePre st st' := by
  intro ss st st' h
  cases ss with
  | nil =>
      simp only [analyzeStmtSeq, Except.ok.injEq] at h
      subst h
      exact framePre_refl _
  | cons s rest =>
      simp only [analyzeStmtSeq] at h
      split at h
      · cases h
      · split at h
        next heq => cases h
        next t1 st1 hstd =>
          exact framePre_trans (ih.stmtD _ _ _ _ hstd) (ih.seq _ _ _ h)

theorem presIf (f : Nat) (ih : FrameInv f) :
    ∀ c thn els st t st',
      analyzeIfStatement (f + 1) c thn els st = Except.ok (t, st') →
      framePre st st' := by
  intro c thn els st t st' h
  simp only [analyzeIfStatement] at h
  split at h
  · cases h
  · split at h
    next heq => cases h
    next condType st1 hcond =>
      have h1 : st1 = st := ih.exprD _ _ _ _ hcond
      subst st1
      split at h
      · cases h
      · split at h
        · split at h
          next heq => cases h
          next tr st2 hthen =>
            split at h
            · cases h
            · simp only [Except.ok.injEq, Prod.mk.injEq] at h
              rw [← h.2]
              exact fullPre_toFrame (ih.thenB _ _ _ _ _ _ hthen)
        · split at h
          · cases h
          · split at h
            next heq => cases h
            next er st2 helse =>
              simp only [Except.ok.injEq, Prod.mk.injEq] at h
              rw [← h.2]
              exact fullPre_toFrame (ih.elseB _ _ _ _ _ _ helse)
        · split at h
          next heq => cases h
          next tr st2 hthen =>
            split at h
            next heq => cases h
            next er st3 helse =>
              simp only [Except.ok.injEq, Prod.mk.injEq] at h
              rw [← h.2]
              have h03 : framePre st st3 := framePre_trans
                (fullPre_toFrame (ih.thenB _ _ _ _ _ _ hthen))
                (fullPre_toFrame (ih.elseB _ _ _ _ _ _ helse))
              split
              · exact framePre_trans h03 (setUnreachable_frame st3)
              · exact h03

theorem presThen (f : Nat) (ih : FrameInv f) :
    ∀ c thn els st b st',
      analyzeThenBlock (f + 1) c thn els st = Except.ok (b, st') →
      fullPre st st' := by
  intro c thn els st b st' h
  simp only [analyzeThenBlock] at h
  split at h
  next heq => cases h
  next t2 st2 hblk =>
    cases hex : st2.exitScope with
    | error e1 => rw [hex] at h; cases h
    | ok st3 =>
        rw [hex] at h
        simp only [Except.ok.injEq, Prod.mk.injEq] at h
        rw [← h.2]
        exact enter_exit_full _ st st2 st3 (ih.block _ _ _ _ _ hblk) hex

theorem presElse (f : Nat) (ih : FrameInv f) :
    ∀ c thn els st b st',
      analyzeElseBlock (f + 1) c thn els st = Except.ok (b, st') →
      fullPre st st' := by
  intro c thn els st b st' h
  cases els with
  | none =>
      simp only [analyzeElseBlock, Except.ok.injEq, Prod.mk.injEq] at h
      rw [← h.2]
      exact fullPre_refl _
  | some bblk =>
      simp only [analyzeElseBlock] at h
      split at h
      next heq => cases h
      next t2 st2 hblk =>
        cases hex : st2.exitScope with
        | error e1 => rw [hex] at h; cases h
        | ok st3 =>
            rw [hex] at h
            simp only [Except.ok.injEq, Prod.mk.injEq] at h
            rw [← h.2]
            exact enter_exit_full _ st st2 st3 (ih.block _ _ _ _ _ hblk) hex

theorem presWhile (f : Nat) (ih : FrameInv f) :
    ∀ c b st t st',
      analyzeWhileStatement (f + 1) c b st = Except.ok (t, st') →
      framePre st st' := by
  intro c b st t st' h
  simp only [analyzeWhileStatement] at h
  split at h
  next heq => cases h
  next condType st1 hcond =>
    have h1 : st1 = st := ih.exprD _ _ _ _ hcond
    subst st1
    split at h
    · cases h
    · split at h
      next heq => cases h
      next t3 st3 hblk =>
        cases hex : st3.exitScope with
        | error e1 => rw [hex] at h; cases h
        | ok st4 =>
            rw [hex] at h
            simp only [Except.ok.injEq, Prod.mk.injEq] at h
            rw [← h.2]
            exact fullPre_toFrame
              (enter_exit_full _ _ _ _ (ih.block _ _ _ _ _ hblk) hex)

theorem presRange (f : Nat) (ih : FrameInv f) :
    ∀ i s e inc b st t st',
      analyzeRangeStatement (f + 1) i s e inc b st = Except.ok (t, st') →
      framePre st st' := by
  intro i s e inc b st t st' h
  simp only [analyzeRangeStatement] at h
  split at h
  next heq => cases h
  next startT st1 h1 =>
    split at h
    next heq => cases h
    next endT st2 h2 =>
      split at h
      next heq => cases h
      next incT st3 h3 =>
        have hs : st3 = st :=
          ((ih.exprD _ _ _ _ h3).trans (ih.exprD _ _ _ _ h2)).trans
            (ih.exprD _ _ _ _ h1)
        subst st3
        split at h
        · cases h
        · split at h
          next heq => cases h
          next st5 hdef =>
            split at h
            next heq => cases h
            next t6 st6 hblk =>
              cases hex : st6.exitScope with
              | error e1 => rw [hex] at h; cases h
              | ok st7 =>
                  rw [hex] at h
                  simp only [Except.ok.injEq, Prod.mk.injEq] at h
                  rw [← h.2]
                  exact fullPre_toFrame (enter_exit_full _ _ _ _
                    (framePre_trans
                      (fullPre_toFrame (define_flags _ _ _ _ hdef))
                      (ih.block _ _ _ _ _ hblk)) hex)

theorem presEach (f : Nat) (ih : FrameInv f) :
    ∀ v it b st t st',
      analyzeEachStatement (f + 1) v it b st = Except.ok (t, st') →
      framePre st st' := by
  intro v it b st t st' h
  simp only [analyzeEachStatement] at h
  split at h
  next heq => cases h
  next iterT st1 hit =>
    have h1 : st1 = st := ih.exprD _ _ _ _ hit
    subst st1
    split at h
    · split at h
      next heq => cases h
      next st2 hdef =>
        split at h
        next heq => cases h
        next t3 st3 hblk =>
          cases hex : st3.exitScope with
          | error e1 => rw [hex] at h; cases h
          | ok st4 =>
              rw [hex] at h
              simp only [Except.ok.injEq, Prod.mk.injEq] at h
              rw [← h.2]
              exact fullPre_toFrame (enter_exit_full _ _ _ _
                (framePre_trans
                  (fullPre_toFrame (define_flags _ _ _ _ hdef))
                  (ih.block _ _ _ _ _ hblk)) hex)
    · cases h

theorem presEcho (f : Nat) (ih : FrameInv f) :
    ∀ e st t st',
      analyzeEchoStatement (f + 1) e st = Except.ok (t, st') →
      framePre st st' := by
  intro e st t st' h
  simp only [analyzeEchoStatement] at h
  split at h
  next heq => cases h
  next t1 st1 heq =>
    simp only [Except.ok.injEq, Prod.mk.injEq] at h
    rw [← h.2]
    exact stateEqFrame (ih.exprD _ _ _ _ heq)

theorem presGrt (f : Nat) (ih : FrameInv f) :
    ∀ e? st t st', getReturnType (f + 1) e? st = Except.ok (t, st') →
      fullPre st st' := by
  intro e? st t st' h
  simp only [getReturnType] at h
  split at h
  · cases h
  · split at h
    next heq => cases h
    next rt st1 heqI =>
      have h1 : st1 = st := by
        cases e? with
        | none =>
            simp only [Except.ok.injEq, Prod.mk.injEq] at heqI
            exact heqI.2.symm
        | some e => exact ih.exprD _ _ _ _ heqI
      subst st1
      split at h
      · cases h
      · split at h
        · simp only [Except.ok.injEq, Prod.mk.injEq] at h
          rw [← h.2]
          exact fix_flags _ _
        · split at h
          · cases h
          · simp only [Except.ok.injEq, Prod.mk.injEq] at h
            rw [← h.2]
            exact fullPre_refl _

theorem presRet (f : Nat) (ih : FrameInv f) :
    ∀ e? st t st',
      analyzeReturnStatement (f + 1) e? st = Except.ok (t, st') →
      framePre st st' := by
  intro e? st t st' h
  simp only [analyzeReturnStatement] at h
  split at h
  next heq => cases h
  next rt st1 hgrt =>
    simp only [Except.ok.injEq, Prod.mk.injEq] at h
    rw [← h.2]
    exact framePre_trans (fullPre_toFrame (ih.grt _ _ _ _ hgrt))
      (setUnreachable_frame st1)

theorem frameInv_succ (f : Nat) (ih : FrameInv f) : FrameInv (f + 1) :=
  ⟨presExprD f ih, presBin f ih, presUn f ih, presAsn f ih, presCall f ih,
   presArgs f ih, presIdx f ih, presMem f ih, presMeth f ih, presArr f ih,
   presSetL f ih, presElems f ih, presMapL f ih, presPairs f ih,
   presEnt f ih, presAttrs f ih, presStmtD f ih, presVarDecl f ih,
   presFunDecl f ih, presBlock f ih, presSeq f ih, presIf f ih,
   presThen f ih, presElse f ih, presWhile f ih, presRange f ih,
   presEach f ih, presEcho f ih, presGrt f ih, presRet f ih⟩

theorem frameInv_all : ∀ f : Nat, FrameInv f := by
  intro f
  induction f with
  | zero => exact frameInv_zero
  | succ f ihf => exact frameInv_succ f ihf

/-- C9: an `IfStatement` whose condition is the boolean literal `true` and
that has no else block leaves, on success, the reachability flag of every
scope on the stack unchanged — even when its then-block ends unreachable —
and leaves the table reachable, so a following statement in the same block
is dispatched by the statement loop rather than rejected as unreachable
code. -/
theorem c9_true_if_no_else_frame (fuel : Nat) (thn : List Stmt)
    (st : SymbolTable) (t : VarType) (st' : SymbolTable)
    (h : analyzeIfStatement fuel (Expr.booleanLiteral true) thn none st =
      Except.ok (t, st')) :
    flagsOf st' = flagsOf st ∧ st'.isReachable = true ∧
    ∀ (f2 : Nat) (s2 : Stmt) (rest : List Stmt),
      analyzeStmtSeq (f2 + 1) (s2 :: rest) st' =
        (match analyzeStmtD f2 s2 st' with
         | Except.error err => Except.error err
         | Except.ok (_, st1) => analyzeStmtSeq f2 rest st1) := by
  cases fuel with
  | zero => simp [analyzeIfStatement] at h
  | succ f =>
      simp only [analyzeIfStatement] at h
      cases hr : st.isReachable with
      | false => rw [hr] at h; simp at h
      | true =>
          rw [hr] at h
          simp only [Bool.not_true, Bool.false_eq_true, if_false] at h
          split at h
          next heq => cases h
          next condType st1 hcond =>
            have h1 : st1 = st := (frameInv_all f).exprD _ _ _ _ hcond
            subst st1
            split at h
            · cases h
            · split at h
              next heq => cases h
              next tr st2 hthen =>
                have hfull : fullPre st st2 :=
                  (frameInv_all f).thenB _ _ _ _ _ _ hthen
                simp only [Except.ok.injEq, Prod.mk.injEq] at h
                rw [← h.2]
                refine ⟨hfull, ?_, ?_⟩
                · rw [fullPre_isReachable hfull, hr]
                · intro f2 s2 rest
                  have hR : st2.isReachable = true := by
                    rw [fullPre_isReachable hfull, hr]
                  rw [analyzeStmtSeq, hR]
                  simp

/-- A two-scope table sitting inside a `while` body, for the C9 witness. -/
def c9LoopTable : SymbolTable :=
  ⟨[⟨[], some (Stmt.whileStatement (Expr.booleanLiteral true) []), true⟩,
    ⟨[], none, true⟩]⟩

theorem c9_true_if_no_else_frame_witness :
    flagsOf c9LoopTable = flagsOf c9LoopTable ∧
    c9LoopTable.isReachable = true ∧
    ∀ (f2 : Nat) (s2 : Stmt) (rest : List Stmt),
      analyzeStmtSeq (f2 + 1) (s2 :: rest) c9LoopTable =
        (match analyzeStmtD f2 s2 c9LoopTable with
         | Except.error err => Except.error err
         | Except.ok (_, st1) => analyzeStmtSeq f2 rest st1) :=
  c9_true_if_no_else_frame 5 [Stmt.haltStatement] c9LoopTable
    (VarType.primitive TokenType.VOID) c9LoopTable (by rfl)


end Cirrus
